import Mathlib

/-!
# Verification of the video-generation pipeline (`app/services/video_service.py`)

Shallow embedding of the core orchestration pipeline of the repository:
per-frame clip generation against an external job service (`sora_create`,
`generate_single_frame`), batch orchestration (`generate_all_pending_frames`),
and final assembly (`combine_clips_local`, `combine_project`, and the
`combine_videos` route that fronts it).

External effects (HTTP responses from the job service, remote storage
availability, FFmpeg success, and the one swallowed store update) are
supplied by explicit environment records; the persistent store (projects,
frames, assets) and the local temp directory are explicit state threaded
through each operation.  A Python function that catches all exceptions and
"never raises" is embedded as a total Lean function; a fallible step is an
`Except String` value carrying the Python error message.
-/

namespace VideoService

/-- Video bytes, abstracted as a list of byte values. -/
abbrev Bytes := List Nat

/-- Substring test on char lists (Python's `needle in haystack`). -/
def listInfix (needle : List Char) : List Char → Bool
  | [] => needle.isEmpty
  | c :: rest => needle.isPrefixOf (c :: rest) || listInfix needle rest

/-- Python's `needle in haystack` on strings. -/
def strContains (needle hay : String) : Bool :=
  listInfix needle.data hay.data

/-- Python's `s.startswith(pre)`. -/
def strStartsWith (pre s : String) : Bool :=
  pre.data.isPrefixOf s.data

/-- Python's `s[:n]` — the first `n` characters of `s`. -/
def pyTake (s : String) (n : Nat) : String :=
  ⟨s.data.take n⟩

-- ---------------------------------------------------------------------------
-- Data model: projects, frames, assets (the Supabase rows the service uses)
-- ---------------------------------------------------------------------------

/-- `projects.status` values used by the service. -/
inductive ProjectStatus
  | queued | generating | clips_ready | completed | failed
  deriving DecidableEq, Repr, BEq

/-- `project_frames.status` values used by the service. -/
inductive FrameStatus
  | pending | generating | completed | failed
  deriving DecidableEq, Repr, BEq

/-- One `projects` row (the fields the pipeline reads/writes). -/
structure Project where
  id : Nat
  status : ProjectStatus
  video_url : Option String
  deriving DecidableEq, Repr

/-- One `project_frames` row. -/
structure Frame where
  id : Nat
  frame_num : Nat
  ai_video_prompt : String
  duration_seconds : Int
  status : FrameStatus
  asset_id : Option Nat
  error_message : Option String
  deriving DecidableEq, Repr

/-- One `assets` row. -/
structure Asset where
  id : Nat
  project_id : Nat
  asset_type : String
  file_path : String
  file_size : Nat
  file_url : Option String
  deriving DecidableEq, Repr

/-- The store state for one project: its row, its frames, its assets, and
the id the store would hand out for the next inserted asset. -/
structure DB where
  project : Project
  frames : List Frame
  assets : List Asset
  nextAssetId : Nat
  deriving DecidableEq, Repr

-- ---------------------------------------------------------------------------
-- Local temp directory
-- ---------------------------------------------------------------------------

/-- Files the pipeline puts in `TEMP_DIR`:
`clip_{projectId}_{frameNum}.mp4`, `list_{projectId}.txt`,
`final_{projectId}.mp4`. -/
inductive TempFile
  | clip (projectId frameNum : Nat)
  | listing (projectId : Nat)
  | final (projectId : Nat)
  deriving DecidableEq, Repr

/-- The temp directory contents: file name ↦ bytes. -/
abbrev Disk := List (TempFile × Bytes)

def diskRead (d : Disk) (f : TempFile) : Option Bytes :=
  (d.find? (fun e => e.1 == f)).map (·.2)

def diskExists (d : Disk) (f : TempFile) : Bool :=
  (diskRead d f).isSome

/-- Write (create or overwrite) a temp file. -/
def diskWrite (d : Disk) (f : TempFile) (b : Bytes) : Disk :=
  d.filter (fun e => !(e.1 == f)) ++ [(f, b)]

/-- `cleanup_temp_file`: silently remove a temp file if it exists. -/
def cleanup_temp_file (d : Disk) (f : TempFile) : Disk :=
  d.filter (fun e => !(e.1 == f))

-- ---------------------------------------------------------------------------
-- Storage paths
-- ---------------------------------------------------------------------------

/-- R2 object path for a frame clip: `trash/videos/{pid}/clip_{n}.mp4`. -/
def framePathStr (pid n : Nat) : String :=
  "trash/videos/" ++ toString pid ++ "/clip_" ++ toString n ++ ".mp4"

/-- R2 object path for the final video: `final/videos/{pid}/final.mp4`. -/
def finalPathStr (pid : Nat) : String :=
  "final/videos/" ++ toString pid ++ "/final.mp4"

/-- Python truthiness of an optional string (`if file_url:`). -/
def urlTruthy : Option String → Bool
  | none => false
  | some s => !(s == "")

-- ---------------------------------------------------------------------------
-- Store operations
-- ---------------------------------------------------------------------------

/-- `update_project_status`: update status and optionally `video_url`.
The Python function catches store errors and only logs them, so a failed
update (`ok = false`) leaves the row unchanged and the caller proceeds. -/
def update_project_status (db : DB) (ok : Bool) (status : ProjectStatus)
    (video_url : Option String := none) : DB :=
  if ok then
    { db with project :=
        { db.project with
          status := status
          video_url := match video_url with
            | none => db.project.video_url
            | some u => some u } }
  else db

/-- `update_frame_status`: update a frame's status, optionally linking an
asset and recording an error message truncated to 1000 characters. -/
def update_frame_status (db : DB) (frame_id : Nat) (status : FrameStatus)
    (asset_id : Option Nat := none) (error_message : Option String := none) : DB :=
  { db with frames := db.frames.map fun f =>
      if f.id == frame_id then
        { f with
          status := status
          asset_id := match asset_id with
            | none => f.asset_id
            | some a => some a
          error_message := match error_message with
            | none => f.error_message
            | some e => some (pyTake e 1000) }
      else f }

/-- `create_asset`: insert an asset row; on the `one_final_video_per_project`
duplicate-key violation (type `"video"` when one already exists for the
project) update the existing row in place instead, returning its id. -/
def create_asset (db : DB) (project_id : Nat) (asset_type : String)
    (file_path : String) (file_size : Nat) (file_url : Option String) : Nat × DB :=
  let conflict := asset_type == "video" &&
    (db.assets.any fun a => a.project_id == project_id && a.asset_type == "video")
  if conflict then
    match db.assets.find? (fun a => a.project_id == project_id && a.asset_type == "video") with
    | some existing =>
      (existing.id,
        { db with assets := db.assets.map fun a =>
            if a.project_id == project_id && a.asset_type == "video" then
              { a with
                file_path := file_path
                file_size := file_size
                file_url := if urlTruthy file_url then file_url else a.file_url }
            else a })
    | none => (db.nextAssetId, db)  -- unreachable: conflict implies a witness
  else
    (db.nextAssetId,
      { db with
        assets := db.assets ++
          [{ id := db.nextAssetId
             project_id := project_id
             asset_type := asset_type
             file_path := file_path
             file_size := file_size
             file_url := if urlTruthy file_url then file_url else none }]
        nextAssetId := db.nextAssetId + 1 })

/-- Frames ordered by ascending `frame_num`
(`.order("frame_num")` in `get_project_with_frames_and_assets`); the store
sort is stable, as is `List.insertionSort`. -/
def sortFrames (l : List Frame) : List Frame :=
  l.insertionSort (fun a b => a.frame_num ≤ b.frame_num)

/-- Python's `sorted` on the collected frame numbers. -/
def sortNats (l : List Nat) : List Nat :=
  l.insertionSort (· ≤ ·)

/-- The project's completed frames, in ascending `frame_num` order. -/
def completedFrames (db : DB) : List Frame :=
  (sortFrames db.frames).filter (fun f => f.status == .completed)

-- ---------------------------------------------------------------------------
-- JobClient: `sora_create`
-- ---------------------------------------------------------------------------

/-- The configuration `sora_create` consults: whether `OPENAI_API_KEY` is set
and the value of `SORA_MAX_DURATION_SECONDS` (default 12). -/
structure SoraConfig where
  apiKeySet : Bool := true
  maxSec : Int := 12

/-- Durations Sora 2 accepts (`ALLOWED = [4, 8, 12]`). -/
def ALLOWED : List Int := [4, 8, 12]

/-- Python's `min(xs, key=key)`: the first element attaining the minimal key. -/
def pyMinByKey (key : Int → Nat) : List Int → Option Int
  | [] => none
  | x :: xs => some (xs.foldl (fun best y => if key y < key best then y else best) x)

/-- Python's `max(xs)` over a list of ints (`ValueError` on empty → `none`). -/
def pyMax : List Int → Option Int
  | [] => none
  | x :: xs => some (xs.foldl (fun best y => if best < y then y else best) x)

/-- The duration snap at the top of `sora_create`:
`sec = min(ALLOWED, key=lambda x: abs(x - duration_seconds))`, then if
`sec > max_sec`, `sec = max(d for d in ALLOWED if d <= max_sec)` — the latter
raises `ValueError` when no allowed duration is ≤ the configured maximum. -/
def snapDuration (duration_seconds : Int) (max_sec : Int) : Except String Int :=
  match pyMinByKey (fun x => (x - duration_seconds).natAbs) ALLOWED with
  | none => .error "ValueError: min() arg is an empty sequence"
  | some sec =>
    if sec > max_sec then
      match pyMax (ALLOWED.filter (fun d => d ≤ max_sec)) with
      | none => .error "ValueError: max() arg is an empty sequence"
      | some m => .ok m
    else .ok sec

/-- What the job service does on one `POST /v1/videos` attempt: an HTTP
response (status code, error body, parsed `id` field) or a network error. -/
inductive SoraAttempt
  | resp (code : Nat) (body : String) (jobId : Option String)
  | netErr (msg : String)

/-- Observable result of one `sora_create` call: the returned job id or the
raised error, how many POSTs were made, the backoff sleeps performed, and the
`seconds` value sent in the request body (none if no request was sent). -/
structure SoraRun where
  outcome : Except String String
  calls : Nat
  sleeps : List Nat
  sentSeconds : Option Int
  deriving Repr

/-- The retry loop of `sora_create` (attempts numbered from 1,
`max_retries = 3`): 4xx responses and a missing job id fail immediately;
other non-200 responses and network errors retry after `sleep(2 ** attempt)`
until the attempt cap, then fail. -/
def soraLoop (attempts : Nat → SoraAttempt) : Nat → Nat → Except String String × Nat × List Nat
  | _, 0 => (.error "Sora job creation failed after all retries", 0, [])
  | i, fuel + 1 =>
    match attempts i with
    | .netErr msg =>
      if i == 3 then
        (.error ("Sora API connection failed after 3 attempts: " ++ msg), 1, [])
      else
        let (o, c, s) := soraLoop attempts (i + 1) fuel
        (o, c + 1, 2 ^ i :: s)
    | .resp code body jobId =>
      if code != 200 then
        if 400 ≤ code ∧ code < 500 then
          (.error ("Sora API error (" ++ toString code ++ "): " ++ body), 1, [])
        else if i == 3 then
          (.error ("Sora API error (" ++ toString code ++ "): " ++ body), 1, [])
        else
          let (o, c, s) := soraLoop attempts (i + 1) fuel
          (o, c + 1, 2 ^ i :: s)
      else
        match jobId with
        | none => (.error "Sora API returned no job ID", 1, [])
        | some j => (.ok j, 1, [])

/-- 5xx responses and network errors — the attempts `sora_create` retries. -/
def isServerSideFailure : SoraAttempt → Bool
  | .netErr _ => true
  | .resp code _ _ => 500 ≤ code

/-- `sora_create(prompt, duration_seconds)`: check the API key, snap the
duration, then run the retry loop against the job service. -/
def sora_create (cfg : SoraConfig) (duration_seconds : Int)
    (attempts : Nat → SoraAttempt) : SoraRun :=
  if !cfg.apiKeySet then
    { outcome := .error "OPENAI_API_KEY must be set in .env to use Sora video generation"
      calls := 0, sleeps := [], sentSeconds := none }
  else
    match snapDuration duration_seconds cfg.maxSec with
    | .error e => { outcome := .error e, calls := 0, sleeps := [], sentSeconds := none }
    | .ok sec =>
      let (o, c, s) := soraLoop attempts 1 3
      { outcome := o, calls := c, sleeps := s, sentSeconds := some sec }

-- ---------------------------------------------------------------------------
-- ClipGenerator: `generate_single_frame`
-- ---------------------------------------------------------------------------

/-- What the external world does for one frame's generation: the job-service
responses to the submit POSTs, the result of `sora_poll_and_download`, of the
local file write, of the R2 upload (public URL, possibly none when no public
base is configured), and an injected store failure for `create_asset`. -/
structure GenEnv where
  attempts : Nat → SoraAttempt
  pollR : Except String Bytes
  saveOk : Except String Unit
  uploadR : Except String (Option String)
  assetFail : Option String := none

/-- Steps 1–5 of `generate_single_frame` (submit, poll+download, local save,
upload, asset record), threading the store and disk; the first failing step
yields the Python exception's message.  The disk is returned in either case:
a clip saved before a later failure stays on disk. -/
def gsfPipeline (cfg : SoraConfig) (env : GenEnv) (db : DB) (disk : Disk)
    (pid fnum : Nat) (_prompt : String) (dur : Int) :
    Except String (DB × Nat) × Disk :=
  match (sora_create cfg dur env.attempts).outcome with
  | .error e => (.error e, disk)
  | .ok _jobId =>
    match env.pollR with
    | .error e => (.error e, disk)
    | .ok bytes =>
      if bytes.isEmpty then (.error "Sora returned empty video data", disk)
      else
        match env.saveOk with
        | .error e => (.error e, disk)
        | .ok _ =>
          let disk1 := diskWrite disk (.clip pid fnum) bytes
          match env.uploadR with
          | .error e => (.error e, disk1)
          | .ok url =>
            match env.assetFail with
            | some e => (.error e, disk1)
            | none =>
              let (aid, db1) :=
                create_asset db pid "frame" (framePathStr pid fnum) bytes.length url
              (.ok (db1, aid), disk1)

/-- `generate_single_frame`: mark the frame generating, run the pipeline, and
mark it completed with its asset — or, on any exception, mark it failed with
the truncated message.  Total: the Python function never raises (it runs as a
fire-and-forget background unit). -/
def generate_single_frame (cfg : SoraConfig) (env : GenEnv) (db : DB) (disk : Disk)
    (frame_id pid fnum : Nat) (prompt : String) (dur : Int) : DB × Disk :=
  let db1 := update_frame_status db frame_id .generating
  match gsfPipeline cfg env db1 disk pid fnum prompt dur with
  | (.ok (db2, aid), disk1) =>
    (update_frame_status db2 frame_id .completed (some aid) none, disk1)
  | (.error e, disk1) =>
    (update_frame_status db1 frame_id .failed none (some e), disk1)

-- ---------------------------------------------------------------------------
-- BatchOrchestrator: `generate_all_pending_frames`
-- ---------------------------------------------------------------------------

/-- Is the frame selected for (re)generation (`status in ("pending","failed")`)? -/
def isPendingOrFailed (f : Frame) : Bool :=
  f.status == .pending || f.status == .failed

/-- The frames `generate_all_pending_frames` processes, in order: the
pending/failed ones of the project's frames as fetched, i.e. sorted by
ascending `frame_num`. -/
def framesToProcess (db : DB) : List Frame :=
  (sortFrames db.frames).filter isPendingOrFailed

/-- Count of completed frames (order-independent, so counting the stored
list equals counting the refetched sorted list). -/
def completedCount (frames : List Frame) : Nat :=
  frames.countP (fun f => f.status == .completed)

/-- `generate_all_pending_frames`: set the project generating, process each
pending/failed frame in ascending `frame_num` order sequentially, then
recompute the aggregate status from all frames: all completed → `clips_ready`,
some completed → `generating`, none → `failed`.  Total: never raises. -/
def generate_all_pending_frames (cfg : SoraConfig) (envs : Nat → GenEnv)
    (db : DB) (disk : Disk) : DB × Disk :=
  let db1 := update_project_status db true .generating
  let todo := framesToProcess db1
  if todo.isEmpty then (db1, disk)
  else
    let (db2, disk2) := todo.foldl
      (fun st f =>
        generate_single_frame cfg (envs f.id) st.1 st.2
          f.id db.project.id f.frame_num f.ai_video_prompt f.duration_seconds)
      (db1, disk)
    let completed := completedCount db2.frames
    let total := db2.frames.length
    if completed == total then (update_project_status db2 true .clips_ready, disk2)
    else if 0 < completed then (update_project_status db2 true .generating, disk2)
    else (update_project_status db2 true .failed, disk2)

-- ---------------------------------------------------------------------------
-- Assembler: `combine_clips_local`, `combine_project`, `combine_videos` route
-- ---------------------------------------------------------------------------

/-- What the external world does during one combine: remote availability of
each frame's clip (`download_clip_from_r2` per frame number), FFmpeg success,
the final upload's result, and whether the store accepts the (swallowed)
project-status update. -/
structure CombineEnv where
  remote : Nat → Option Bytes
  ffmpegOk : Bool := true
  uploadFinal : Except String (Option String)
  statusUpdateOk : Bool := true

/-- The asset lookup `combine_project` uses for a missing local clip:
`asset_type == "frame" and file_url and f"clip_{fnum}" in file_path`. -/
def findClipAsset (assets : List Asset) (fnum : Nat) : Option Asset :=
  assets.find? fun a =>
    a.asset_type == "frame" && urlTruthy a.file_url &&
      strContains ("clip_" ++ toString fnum) a.file_path

/-- The per-completed-frame loop of `combine_project`: ensure each clip is on
disk, re-downloading from R2 when missing; a clip available neither locally
nor remotely aborts with the Python error string.  Returns the collected
frame numbers; errors carry the disk too, since clips downloaded for earlier
frames stay on disk. -/
def ensureClips (env : CombineEnv) (pid : Nat) (assets : List Asset) :
    List Frame → Disk → Except (String × Disk) (List Nat × Disk)
  | [], disk => .ok ([], disk)
  | cf :: rest, disk =>
    let fnum := cf.frame_num
    if diskExists disk (.clip pid fnum) then
      match ensureClips env pid assets rest disk with
      | .error e => .error e
      | .ok (nums, disk1) => .ok (fnum :: nums, disk1)
    else
      match findClipAsset assets fnum with
      | some _clipAsset =>
        match env.remote fnum with
        | some bytes =>
          match ensureClips env pid assets rest (diskWrite disk (.clip pid fnum) bytes) with
          | .error e => .error e
          | .ok (nums, disk1) => .ok (fnum :: nums, disk1)
        | none =>
          .error ("Cannot retrieve clip for frame " ++ toString fnum ++ " — not on disk or R2", disk)
      | none =>
        .error ("Clip for frame " ++ toString fnum ++ " not found locally and no R2 URL available", disk)

/-- `combine_clips_local`: concatenate the clips for `sorted(frame_nums)`
from the temp dir, via the FFmpeg concat demuxer with stream copy; writes
the concat list file and the final file, returns the final bytes.  Raises
(`.error`) on a missing clip or FFmpeg failure. -/
def combine_clips_local (pid : Nat) (frame_nums : List Nat) (ffmpegOk : Bool)
    (disk : Disk) : Except String Bytes × Disk :=
  let snums := sortNats frame_nums
  match snums.find? (fun n => !diskExists disk (.clip pid n)) with
  | some n => (.error ("Missing clip for frame " ++ toString n), disk)
  | none =>
    if snums.isEmpty then
      (.error "No clips found to combine", disk)
    else
      let disk1 := diskWrite disk (.listing pid) snums
      if !ffmpegOk then
        (.error "FFmpeg concat failed", disk1)
      else
        let finalBytes := snums.flatMap fun n => (diskRead disk (.clip pid n)).getD []
        (.ok finalBytes, diskWrite disk1 (.final pid) finalBytes)

/-- Success payload of `combine_project`
(`{"asset_id": …, "video_url": …, "file_size": …}`). -/
structure CombineOk where
  asset_id : Nat
  video_url : Option String
  file_size : Nat
  deriving DecidableEq, Repr

/-- Full observable outcome of one `combine_project` run: the returned dict
(result or error), the store, the temp dir, and the final-video uploads that
actually reached storage. -/
structure CombineRes where
  result : Except String CombineOk
  db : DB
  disk : Disk
  uploaded : List Bytes
  deriving Repr

/-- `combine_project`: gather completed frames' clips (recovering from R2),
concatenate, upload the final video, create-or-update the final asset, set
the project completed with the URL, and only then delete the temp files.
Any exception is caught: the project is set failed and the error returned —
the function itself never raises.  The early "missing clip" returns leave
the store untouched. -/
def combine_project (env : CombineEnv) (db : DB) (disk : Disk) : CombineRes :=
  let pid := db.project.id
  let frames := sortFrames db.frames
  if frames.isEmpty then
    { result := .error "No frames in project", db := db, disk := disk, uploaded := [] }
  else
    let completed := completedFrames db
    if completed.isEmpty then
      { result := .error "No completed clips to combine", db := db, disk := disk, uploaded := [] }
    else
      match ensureClips env pid db.assets completed disk with
      | .error (msg, disk1) =>
        { result := .error msg, db := db, disk := disk1, uploaded := [] }
      | .ok (frame_nums, disk1) =>
        match combine_clips_local pid frame_nums env.ffmpegOk disk1 with
        | (.error e, disk2) =>
          { result := .error e
            db := update_project_status db env.statusUpdateOk .failed
            disk := disk2, uploaded := [] }
        | (.ok finalBytes, disk2) =>
          let cleanList :=
            completed.map (fun cf => TempFile.clip pid cf.frame_num) ++
              [TempFile.listing pid, TempFile.final pid]
          match env.uploadFinal with
          | .error e =>
            { result := .error e
              db := update_project_status db env.statusUpdateOk .failed
              disk := disk2, uploaded := [] }
          | .ok url =>
            let (aid, db1) := create_asset db pid "video" (finalPathStr pid) finalBytes.length url
            let db2 := update_project_status db1 env.statusUpdateOk .completed url
            let disk3 := cleanList.foldl cleanup_temp_file disk2
            { result := .ok { asset_id := aid, video_url := url, file_size := finalBytes.length }
              db := db2, disk := disk3, uploaded := [finalBytes] }

/-- HTTP-level response of `POST /projects/{id}/combine`. -/
inductive RouteResp
  | noCompleted
  | alreadyCombined (video_url : Option String)
  | started (clips_count : Nat)
  deriving DecidableEq, Repr

/-- One call of the combine endpoint together with the background
`combine_project` it schedules (run to completion here): reject when no
completed clips; short-circuit when an asset under `final/` already exists;
otherwise run the combine. -/
structure CombineCall where
  resp : RouteResp
  bg : Option CombineRes
  db : DB
  disk : Disk

/-- `combine_videos` (the `POST /projects/{project_id}/combine` route),
including the background `combine_project` task it starts. -/
def combine_videos (env : CombineEnv) (db : DB) (disk : Disk) : CombineCall :=
  let completed := completedFrames db
  if completed.isEmpty then
    { resp := .noCompleted, bg := none, db := db, disk := disk }
  else
    match db.assets.filter (fun a => strStartsWith "final/" a.file_path) with
    | a :: _ =>
      { resp := .alreadyCombined a.file_url, bg := none, db := db, disk := disk }
    | [] =>
      let r := combine_project env db disk
      { resp := .started completed.length, bg := some r, db := r.db, disk := r.disk }

-- ---------------------------------------------------------------------------
-- A small concrete scenario: one project, three frames inserted out of order
-- ---------------------------------------------------------------------------

def smpFrame1 : Frame :=
  { id := 11, frame_num := 1, ai_video_prompt := "p1", duration_seconds := 8,
    status := .pending, asset_id := none, error_message := none }

def smpFrame2 : Frame :=
  { id := 12, frame_num := 2, ai_video_prompt := "p2", duration_seconds := 8,
    status := .pending, asset_id := none, error_message := none }

def smpFrame3 : Frame :=
  { id := 13, frame_num := 3, ai_video_prompt := "p3", duration_seconds := 8,
    status := .pending, asset_id := none, error_message := none }

/-- A pending project whose frames were inserted in order [3, 1, 2]. -/
def smpDB : DB :=
  { project := { id := 7, status := .queued, video_url := none },
    frames := [smpFrame3, smpFrame1, smpFrame2], assets := [], nextAssetId := 100 }

def smpOkAttempts : Nat → SoraAttempt := fun _ => .resp 200 "" (some "job1")

def smp4xxAttempts : Nat → SoraAttempt := fun _ => .resp 400 "bad prompt" none

def smp5xxAttempts : Nat → SoraAttempt := fun _ => .resp 500 "upstream down" none

def smpOkEnv : GenEnv :=
  { attempts := smpOkAttempts, pollR := .ok [9], saveOk := .ok (),
    uploadR := .ok (some "http://clip") }

def smp4xxEnv : GenEnv :=
  { attempts := smp4xxAttempts, pollR := .ok [9], saveOk := .ok (),
    uploadR := .ok (some "http://clip") }

/-- Frame 12 (frame_num 2) fails permanently with a 4xx; the others succeed. -/
def smpEnvs : Nat → GenEnv := fun fid => if fid == 12 then smp4xxEnv else smpOkEnv

/-- The same project after all three frames completed. -/
def smpClipsDB : DB :=
  { project := { id := 7, status := .clips_ready, video_url := none },
    frames := [{ smpFrame3 with status := .completed },
               { smpFrame1 with status := .completed },
               { smpFrame2 with status := .completed }],
    assets := [], nextAssetId := 100 }

/-- The same project with frame 2 failed and the other two completed. -/
def smpPartialDB : DB :=
  { project := { id := 7, status := .generating, video_url := none },
    frames := [{ smpFrame3 with status := .completed },
               { smpFrame1 with status := .completed },
               { smpFrame2 with status := .failed, error_message := some "boom" }],
    assets := [], nextAssetId := 100 }

/-- All three clips cached locally (written out of frame order). -/
def smpDisk : Disk :=
  [(.clip 7 3, [30]), (.clip 7 1, [10]), (.clip 7 2, [20])]

/-- Clip 1 missing locally; nothing available remotely. -/
def smpDiskMissing : Disk :=
  [(.clip 7 3, [30]), (.clip 7 2, [20])]

/-- How frame 11 ends up after its submit fails with the sample 4xx. -/
def smpFailedFrame1 : Frame :=
  { smpFrame1 with
    status := .failed
    error_message := some "Sora API error (400): bad prompt" }

/-- How frame 12 ends up after its submit fails with the sample 4xx. -/
def smpFailedFrame2 : Frame :=
  { smpFrame2 with
    status := .failed
    error_message := some "Sora API error (400): bad prompt" }

/-- Clips of the two completed frames of the partial project. -/
def smpPartialDisk : Disk := [(.clip 7 3, [30]), (.clip 7 1, [10])]

def smpCombineEnv : CombineEnv :=
  { remote := fun _ => none, uploadFinal := .ok (some "http://final") }

/-- Combine environment whose project-status store update fails (and is
swallowed by `update_project_status`). -/
def smpCombineEnvNoStatus : CombineEnv :=
  { remote := fun _ => none, uploadFinal := .ok (some "http://final"),
    statusUpdateOk := false }

end VideoService

-- ---------------------------------------------------------------------------
-- Helper lemmas
-- ---------------------------------------------------------------------------

namespace VideoService

theorem pyTake_length (s : String) (n : Nat) : (pyTake s n).length ≤ n := by
  have h : (pyTake s n).length = (s.data.take n).length := rfl
  rw [h, List.length_take]
  omega

theorem string_eq_empty_iff (s : String) : s = "" ↔ s.data = [] := by
  constructor
  · rintro rfl; rfl
  · intro h; cases s; cases h; rfl

theorem pyTake_ne_empty (s : String) (hs : s ≠ "") (n : Nat) (hn : 0 < n) :
    pyTake s n ≠ "" := by
  simp only [ne_eq, string_eq_empty_iff] at hs ⊢
  have h : (pyTake s n).data = s.data.take n := rfl
  rw [h, List.take_eq_nil_iff]
  rintro (h0 | h0)
  · omega
  · exact hs h0

/-- A frame matching the id of an `update_frame_status` call carries the new
status and the truncated error message afterwards. -/
theorem update_frame_status_mem_self (db : DB) (fid : Nat) (st : FrameStatus)
    (aid : Option Nat) (e : String) {g : Frame}
    (hg : g ∈ (update_frame_status db fid st aid (some e)).frames) (hid : g.id = fid) :
    g.status = st ∧ g.error_message = some (pyTake e 1000) := by
  simp only [update_frame_status, List.mem_map] at hg
  obtain ⟨f, hf, rfl⟩ := hg
  cases hfi : (f.id == fid) with
  | true => simp [hfi]
  | false =>
    simp only [hfi, Bool.false_eq_true, if_false] at hid ⊢
    exact absurd hid (by simpa using hfi)

/-- The duration snap always yields an allowed value not exceeding the
maximum, namely the nearest such value with ties broken toward the smaller
one, provided at least one allowed value fits. -/
theorem snap_spec (d max_sec : Int) (h4 : 4 ≤ max_sec) :
    ∃ s, snapDuration d max_sec = .ok s ∧ s ∈ ALLOWED ∧ s ≤ max_sec ∧
      ∀ x ∈ ALLOWED, x ≤ max_sec →
        (s - d).natAbs < (x - d).natAbs ∨
          ((s - d).natAbs = (x - d).natAbs ∧ s ≤ x) := by
  simp only [snapDuration, pyMinByKey, pyMax, ALLOWED, List.foldl, List.filter,
    List.mem_cons, List.not_mem_nil, or_false]
  rcases le_or_lt 12 max_sec with h12 | h12
  · simp only [show decide (4 ≤ max_sec) = true from by rw [decide_eq_true_eq]; omega,
      show decide (8 ≤ max_sec) = true from by rw [decide_eq_true_eq]; omega,
      show decide (12 ≤ max_sec) = true from by rw [decide_eq_true_eq]; omega,
      List.foldl]
    split_ifs <;> (refine ⟨_, rfl, by omega, by omega, ?_⟩) <;>
      (rintro x (rfl | rfl | rfl) hx <;> omega)
  · rcases le_or_lt 8 max_sec with h8 | h8
    · simp only [show decide (4 ≤ max_sec) = true from by rw [decide_eq_true_eq]; omega,
        show decide (8 ≤ max_sec) = true from by rw [decide_eq_true_eq]; omega,
        show decide (12 ≤ max_sec) = false from by rw [decide_eq_false_iff_not]; omega,
        List.foldl]
      split_ifs <;> (refine ⟨_, rfl, by omega, by omega, ?_⟩) <;>
        (rintro x (rfl | rfl | rfl) hx <;> omega)
    · simp only [show decide (4 ≤ max_sec) = true from by rw [decide_eq_true_eq]; omega,
        show decide (8 ≤ max_sec) = false from by rw [decide_eq_false_iff_not]; omega,
        show decide (12 ≤ max_sec) = false from by rw [decide_eq_false_iff_not]; omega,
        List.foldl]
      split_ifs <;> (refine ⟨_, rfl, by omega, by omega, ?_⟩) <;>
        (rintro x (rfl | rfl | rfl) hx <;> omega)

/-- When no allowed duration fits under the maximum, the snap raises the
`ValueError` of `max()` over an empty sequence. -/
theorem snap_err (d max_sec : Int) (hlt : max_sec < 4) :
    snapDuration d max_sec = .error "ValueError: max() arg is an empty sequence" := by
  simp only [snapDuration, pyMinByKey, pyMax, ALLOWED, List.foldl, List.filter,
    show decide ((4:Int) ≤ max_sec) = false from by rw [decide_eq_false_iff_not]; omega,
    show decide ((8:Int) ≤ max_sec) = false from by rw [decide_eq_false_iff_not]; omega,
    show decide ((12:Int) ≤ max_sec) = false from by rw [decide_eq_false_iff_not]; omega]
  split_ifs <;> first | rfl | omega

/-- A 4xx on the first POST fails at once: one call, no sleeps, and the
upstream body inside the error. -/
theorem soraLoop_client_error (attempts : Nat → SoraAttempt) (code : Nat) (body : String)
    (jid : Option String) (ha : attempts 1 = .resp code body jid)
    (h4 : 400 ≤ code) (h5 : code < 500) :
    soraLoop attempts 1 3 =
      (.error ("Sora API error (" ++ toString code ++ "): " ++ body), 1, []) := by
  have h200 : (code != 200) = true := by simp only [bne_iff_ne]; omega
  simp only [soraLoop, ha, h200, if_true]
  rw [if_pos ⟨h4, h5⟩]

/-- A transient failure below the attempt cap recurses after sleeping
`2 ^ attempt`. -/
theorem soraLoop_transient_step (attempts : Nat → SoraAttempt) (i fuel : Nat)
    (hi : (i == 3) = false) (ht : isServerSideFailure (attempts i) = true) :
    soraLoop attempts i (fuel + 1) =
      ((soraLoop attempts (i + 1) fuel).1,
       (soraLoop attempts (i + 1) fuel).2.1 + 1,
       2 ^ i :: (soraLoop attempts (i + 1) fuel).2.2) := by
  cases ha : attempts i with
  | netErr m =>
    simp only [soraLoop, ha, hi, Bool.false_eq_true, if_false]
  | resp c b j =>
    rw [ha] at ht
    simp only [isServerSideFailure, decide_eq_true_eq] at ht
    have h200 : (c != 200) = true := by simp only [bne_iff_ne]; omega
    simp only [soraLoop, ha, h200, if_true]
    rw [if_neg (by omega : ¬ (400 ≤ c ∧ c < 500))]
    simp only [hi, Bool.false_eq_true, if_false]

/-- A transient failure at the attempt cap raises. -/
theorem soraLoop_transient_last (attempts : Nat → SoraAttempt) (fuel : Nat)
    (ht : isServerSideFailure (attempts 3) = true) :
    ∃ e, soraLoop attempts 3 (fuel + 1) = (.error e, 1, []) := by
  cases ha : attempts 3 with
  | netErr m =>
    exact ⟨"Sora API connection failed after 3 attempts: " ++ m,
      by simp only [soraLoop, ha]; simp⟩
  | resp c b j =>
    rw [ha] at ht
    simp only [isServerSideFailure, decide_eq_true_eq] at ht
    have h200 : (c != 200) = true := by simp only [bne_iff_ne]; omega
    refine ⟨"Sora API error (" ++ toString c ++ "): " ++ b, ?_⟩
    simp only [soraLoop, ha, h200, if_true]
    rw [if_neg (by omega : ¬ (400 ≤ c ∧ c < 500))]
    simp

/-- Three transient failures exhaust the retry loop: three calls, backoff
sleeps of 2 then 4 seconds, then an error. -/
theorem soraLoop_transient (attempts : Nat → SoraAttempt)
    (h : ∀ i, 1 ≤ i → i ≤ 3 → isServerSideFailure (attempts i) = true) :
    ∃ e, soraLoop attempts 1 3 = (.error e, 3, [2, 4]) := by
  obtain ⟨e, he⟩ := soraLoop_transient_last attempts 0 (h 3 (by omega) (by omega))
  have s2 := soraLoop_transient_step attempts 2 1 (by decide) (h 2 (by omega) (by omega))
  have s1 := soraLoop_transient_step attempts 1 2 (by decide) (h 1 (by omega) (by omega))
  norm_num at s1 s2 he
  rw [s1, s2, he]
  exact ⟨e, rfl⟩

end VideoService

namespace VideoService

theorem update_project_status_frames (db : DB) (ok : Bool) (st : ProjectStatus)
    (u : Option String) : (update_project_status db ok st u).frames = db.frames := by
  unfold update_project_status
  split <;> rfl

theorem update_project_status_status (db : DB) (st : ProjectStatus)
    (u : Option String) : (update_project_status db true st u).project.status = st := rfl

theorem update_frame_status_frames_length (db : DB) (fid : Nat) (st : FrameStatus)
    (aid : Option Nat) (em : Option String) :
    (update_frame_status db fid st aid em).frames.length = db.frames.length := by
  simp [update_frame_status]

theorem create_asset_frames (db : DB) (pid : Nat) (ty path : String) (sz : Nat)
    (url : Option String) : (create_asset db pid ty path sz url).2.frames = db.frames := by
  simp only [create_asset]
  split
  · split <;> rfl
  · rfl

theorem gsfPipeline_ok_frames (cfg : SoraConfig) (env : GenEnv) (db : DB) (disk : Disk)
    (pid fnum : Nat) (p : String) (d : Int) (db2 : DB) (aid : Nat) (disk' : Disk)
    (h : gsfPipeline cfg env db disk pid fnum p d = (.ok (db2, aid), disk')) :
    db2.frames = db.frames := by
  unfold gsfPipeline at h
  repeat' split at h
  all_goals
    first
      | (simp only [Prod.mk.injEq, Except.ok.injEq] at h
         rename_i heq
         rw [← h.1.1]
         exact (congrArg (fun p => p.2.frames) heq).symm.trans
           (create_asset_frames _ _ _ _ _ _))
      | simp at h

theorem gsf_frames_length (cfg : SoraConfig) (env : GenEnv) (db : DB) (disk : Disk)
    (fid pid fnum : Nat) (p : String) (d : Int) :
    (generate_single_frame cfg env db disk fid pid fnum p d).1.frames.length =
      db.frames.length := by
  unfold generate_single_frame
  rcases hp : gsfPipeline cfg env (update_frame_status db fid .generating) disk pid fnum p d
    with ⟨res, disk1⟩
  cases res with
  | ok v =>
    rcases v with ⟨db2, aid⟩
    have hfr := gsfPipeline_ok_frames cfg env _ disk pid fnum p d db2 aid disk1 hp
    simp only [hp]
    rw [update_frame_status_frames_length, hfr]
    exact update_frame_status_frames_length _ _ _ _ _
  | error e =>
    simp only [hp]
    rw [update_frame_status_frames_length]
    exact update_frame_status_frames_length _ _ _ _ _

theorem gsf_foldl_frames_length (cfg : SoraConfig) (envs : Nat → GenEnv) (pid : Nat) :
    ∀ (todo : List Frame) (st : DB × Disk),
      ((todo.foldl (fun st f =>
          generate_single_frame cfg (envs f.id) st.1 st.2
            f.id pid f.frame_num f.ai_video_prompt f.duration_seconds) st).1).frames.length =
        st.1.frames.length := by
  intro todo
  induction todo with
  | nil => intro st; rfl
  | cons f rest ih =>
    intro st
    rw [List.foldl_cons, ih]
    exact gsf_frames_length _ _ _ _ _ _ _ _ _

end VideoService

namespace VideoService

theorem framesToProcess_ne_nil_frames (db : DB) (hne : framesToProcess db ≠ []) :
    db.frames ≠ [] := by
  intro hdbf
  apply hne
  simp [framesToProcess, sortFrames, hdbf]

theorem framesToProcess_update_project (db : DB) (ok : Bool) (st : ProjectStatus)
    (u : Option String) :
    framesToProcess (update_project_status db ok st u) = framesToProcess db := by
  unfold framesToProcess
  rw [update_project_status_frames]

theorem gapf_status_trichotomy (cfg : SoraConfig) (envs : Nat → GenEnv) (db : DB)
    (disk : Disk) (hne : framesToProcess db ≠ []) :
    ∀ db', (generate_all_pending_frames cfg envs db disk).1 = db' →
      (completedCount db'.frames = db'.frames.length → db'.project.status = .clips_ready) ∧
      (0 < completedCount db'.frames → completedCount db'.frames < db'.frames.length →
        db'.project.status = .generating) ∧
      (completedCount db'.frames = 0 → db'.project.status = .failed) := by
  intro db' h
  simp only [generate_all_pending_frames] at h
  rw [framesToProcess_update_project] at h
  cases hie : (framesToProcess db).isEmpty with
  | true => exact absurd (List.isEmpty_iff.mp hie) hne
  | false =>
    rw [hie] at h
    simp only [Bool.false_eq_true, if_false] at h
    have hlen :
        ((framesToProcess db).foldl (fun st f =>
            generate_single_frame cfg (envs f.id) st.1 st.2
              f.id db.project.id f.frame_num f.ai_video_prompt f.duration_seconds)
          (update_project_status db true .generating, disk)).1.frames.length =
          db.frames.length := by
      rw [gsf_foldl_frames_length]
      exact congrArg List.length (update_project_status_frames db true .generating none)
    set F := (framesToProcess db).foldl (fun st f =>
        generate_single_frame cfg (envs f.id) st.1 st.2
          f.id db.project.id f.frame_num f.ai_video_prompt f.duration_seconds)
      (update_project_status db true .generating, disk) with hF
    have htpos : 0 < db.frames.length :=
      List.length_pos.mpr (framesToProcess_ne_nil_frames db hne)
    by_cases hct : (completedCount F.1.frames == F.1.frames.length) = true
    · rw [if_pos hct] at h
      have hcteq : completedCount F.1.frames = F.1.frames.length := by simpa using hct
      subst h
      rw [update_project_status_frames]
      refine ⟨fun _ => update_project_status_status _ _ _, fun h0 hlt => ?_, fun h0 => ?_⟩
      · omega
      · omega
    · rw [if_neg hct] at h
      have hctne : ¬ completedCount F.1.frames = F.1.frames.length := by simpa using hct
      by_cases h0 : 0 < completedCount F.1.frames
      · rw [if_pos h0] at h
        subst h
        rw [update_project_status_frames]
        exact ⟨fun hc => absurd hc hctne, fun _ _ => update_project_status_status _ _ _,
          fun hc => by omega⟩
      · rw [if_neg h0] at h
        subst h
        rw [update_project_status_frames]
        exact ⟨fun hc => absurd hc hctne, fun hp _ => absurd hp h0,
          fun _ => update_project_status_status _ _ _⟩

end VideoService

namespace VideoService

theorem string_append_ne_empty_left (s t : String) (hs : s ≠ "") : s ++ t ≠ "" := by
  simp only [ne_eq, string_eq_empty_iff] at hs ⊢
  have h : (s ++ t).data = s.data ++ t.data := rfl
  rw [h, List.append_eq_nil]
  rintro ⟨h1, -⟩
  exact hs h1

theorem update_frame_status_preserve (db : DB) (fid : Nat) (st : FrameStatus)
    (aid : Option Nat) (em : Option String) (P : Frame → Prop) (tgt : Nat)
    (hne : fid ≠ tgt) (hP : ∀ g ∈ db.frames, g.id = tgt → P g) :
    ∀ g ∈ (update_frame_status db fid st aid em).frames, g.id = tgt → P g := by
  intro g hg hid
  simp only [update_frame_status, List.mem_map] at hg
  obtain ⟨f, hf, rfl⟩ := hg
  cases hfi : (f.id == fid) with
  | true =>
    simp only [hfi, if_true] at hid
    have hfid : f.id = fid := by simpa using hfi
    exact absurd (hfid.symm.trans hid) hne
  | false =>
    simp only [hfi, Bool.false_eq_true, if_false] at hid ⊢
    exact hP f hf hid

theorem gsf_preserve (cfg : SoraConfig) (env : GenEnv) (db : DB) (disk : Disk)
    (fid pid fnum : Nat) (p : String) (d : Int) (P : Frame → Prop) (tgt : Nat)
    (hne : fid ≠ tgt) (hP : ∀ g ∈ db.frames, g.id = tgt → P g) :
    ∀ g ∈ (generate_single_frame cfg env db disk fid pid fnum p d).1.frames,
      g.id = tgt → P g := by
  have hP1 : ∀ g ∈ (update_frame_status db fid .generating).frames, g.id = tgt → P g :=
    update_frame_status_preserve db fid _ _ _ P tgt hne hP
  unfold generate_single_frame
  rcases hp : gsfPipeline cfg env (update_frame_status db fid .generating) disk pid fnum p d
    with ⟨res, disk1⟩
  cases res with
  | ok v =>
    rcases v with ⟨db2, aid⟩
    have hfr := gsfPipeline_ok_frames cfg env _ disk pid fnum p d db2 aid disk1 hp
    simp only [hp]
    apply update_frame_status_preserve db2 fid _ _ _ P tgt hne
    rw [hfr]
    exact hP1
  | error e =>
    simp only [hp]
    exact update_frame_status_preserve _ fid _ _ _ P tgt hne hP1

theorem gsf_foldl_preserve (cfg : SoraConfig) (envs : Nat → GenEnv) (pid : Nat)
    (P : Frame → Prop) (tgt : Nat) :
    ∀ (post : List Frame), (∀ t ∈ post, t.id ≠ tgt) →
    ∀ st : DB × Disk, (∀ g ∈ st.1.frames, g.id = tgt → P g) →
    ∀ g ∈ ((post.foldl (fun st f =>
        generate_single_frame cfg (envs f.id) st.1 st.2
          f.id pid f.frame_num f.ai_video_prompt f.duration_seconds) st).1).frames,
      g.id = tgt → P g := by
  intro post
  induction post with
  | nil => intro _ st hst; exact hst
  | cons t rest ih =>
    intro hids st hst
    rw [List.foldl_cons]
    exact ih (fun x hx => hids x (List.mem_cons_of_mem _ hx)) _
      (gsf_preserve cfg (envs t.id) st.1 st.2 t.id pid t.frame_num t.ai_video_prompt
        t.duration_seconds P tgt (hids t (List.mem_cons_self _ _)) hst)

theorem sora_create_4xx_outcome (cfg : SoraConfig) (d : Int)
    (attempts : Nat → SoraAttempt) (code : Nat) (body : String) (jid : Option String)
    (hkey : cfg.apiKeySet = true) (hmax : 4 ≤ cfg.maxSec)
    (ha : attempts 1 = .resp code body jid) (h4 : 400 ≤ code) (h5 : code < 500) :
    (sora_create cfg d attempts).outcome =
      .error ("Sora API error (" ++ toString code ++ "): " ++ body) := by
  obtain ⟨s, hs, -, -, -⟩ := snap_spec d cfg.maxSec hmax
  have hl := soraLoop_client_error attempts code body jid ha h4 h5
  simp [sora_create, hkey, hs, hl]

theorem gsf_4xx_marks_failed (cfg : SoraConfig) (env : GenEnv) (db : DB) (disk : Disk)
    (fid pid fnum : Nat) (p : String) (d : Int) (code : Nat) (body : String)
    (jid : Option String) (hkey : cfg.apiKeySet = true) (hmax : 4 ≤ cfg.maxSec)
    (ha : env.attempts 1 = .resp code body jid) (h4 : 400 ≤ code) (h5 : code < 500) :
    ∀ g ∈ (generate_single_frame cfg env db disk fid pid fnum p d).1.frames,
      g.id = fid → g.status = .failed ∧ ∃ s, g.error_message = some s ∧ s ≠ "" := by
  have ho := sora_create_4xx_outcome cfg d env.attempts code body jid hkey hmax ha h4 h5
  have hpip : gsfPipeline cfg env (update_frame_status db fid .generating) disk pid fnum p d
      = (.error ("Sora API error (" ++ toString code ++ "): " ++ body), disk) := by
    unfold gsfPipeline
    rw [ho]
  intro g hg hid
  rw [generate_single_frame, hpip] at hg
  obtain ⟨h1, h2⟩ := update_frame_status_mem_self _ fid .failed none _ hg hid
  refine ⟨h1, _, h2, ?_⟩
  apply pyTake_ne_empty _ ?_ _ (by omega)
  apply string_append_ne_empty_left
  apply string_append_ne_empty_left
  apply string_append_ne_empty_left
  decide

end VideoService

namespace VideoService

theorem gapf_frames_eq_fold (cfg : SoraConfig) (envs : Nat → GenEnv) (db : DB)
    (disk : Disk) (hne : framesToProcess db ≠ []) :
    (generate_all_pending_frames cfg envs db disk).1.frames =
      (((framesToProcess db).foldl (fun st f =>
          generate_single_frame cfg (envs f.id) st.1 st.2
            f.id db.project.id f.frame_num f.ai_video_prompt f.duration_seconds)
        (update_project_status db true .generating, disk)).1).frames := by
  simp only [generate_all_pending_frames]
  rw [framesToProcess_update_project]
  cases hie : (framesToProcess db).isEmpty with
  | true => exact absurd (List.isEmpty_iff.mp hie) hne
  | false =>
    simp only [Bool.false_eq_true, if_false]
    split_ifs <;> exact update_project_status_frames _ _ _ _
    
theorem gapf_4xx_frame_failed (cfg : SoraConfig) (envs : Nat → GenEnv) (db : DB)
    (disk : Disk) (pre post : List Frame) (f : Frame) (code : Nat) (body : String)
    (jid : Option String)
    (hkey : cfg.apiKeySet = true) (hmax : 4 ≤ cfg.maxSec)
    (hnodup : (db.frames.map (fun g => g.id)).Nodup)
    (hsplit : framesToProcess db = pre ++ f :: post)
    (ha : (envs f.id).attempts 1 = .resp code body jid)
    (h4 : 400 ≤ code) (h5 : code < 500) :
    ∀ g ∈ (generate_all_pending_frames cfg envs db disk).1.frames, g.id = f.id →
      g.status = .failed ∧ ∃ s, g.error_message = some s ∧ s ≠ "" := by
  have hne : framesToProcess db ≠ [] := by simp [hsplit]
  have hperm : List.Perm (sortFrames db.frames) db.frames := List.perm_insertionSort _ _
  have h1 : ((sortFrames db.frames).map (fun g => g.id)).Nodup :=
    ((hperm.map _).nodup_iff).mpr hnodup
  have hsub : List.Sublist (framesToProcess db) (sortFrames db.frames) := List.filter_sublist _
  have h2 : ((framesToProcess db).map (fun g => g.id)).Nodup :=
    h1.sublist (hsub.map _)
  rw [hsplit] at h2
  simp only [List.map_append, List.map_cons, List.nodup_append, List.nodup_cons] at h2
  have hpost : ∀ t ∈ post, t.id ≠ f.id := by
    intro t ht heq
    exact h2.2.1.1 (heq ▸ List.mem_map_of_mem (fun g => g.id) ht)
  rw [gapf_frames_eq_fold cfg envs db disk hne, hsplit, List.foldl_append, List.foldl_cons]
  exact gsf_foldl_preserve cfg envs db.project.id
    (fun g => g.status = .failed ∧ ∃ s, g.error_message = some s ∧ s ≠ "") f.id post hpost _
    (gsf_4xx_marks_failed cfg (envs f.id) _ _ f.id db.project.id f.frame_num
      f.ai_video_prompt f.duration_seconds code body jid hkey hmax ha h4 h5)

end VideoService

namespace VideoService

end VideoService

namespace VideoService

theorem find?_filter_of_imp {α : Type} (p q : α → Bool) (l : List α)
    (h : ∀ x, p x = true → q x = true) :
    List.find? p (l.filter q) = List.find? p l := by
  induction l with
  | nil => rfl
  | cons a rest ih =>
    by_cases hqa : q a = true
    · rw [List.filter_cons, if_pos hqa, List.find?_cons, List.find?_cons]
      cases hpa : p a <;> simp [ih]
    · have hqa' : q a = false := by simpa using hqa
      rw [List.filter_cons]
      simp only [hqa', Bool.false_eq_true, if_false]
      have hpa : p a = false := by
        cases hpa : p a
        · rfl
        · exact absurd (h a hpa) hqa
      rw [List.find?_cons]
      simp [hpa, ih]

theorem diskRead_diskWrite (d : Disk) (g : TempFile) (b : Bytes) (f : TempFile) :
    diskRead (diskWrite d g b) f = if f = g then some b else diskRead d f := by
  unfold diskRead diskWrite
  rw [List.find?_append]
  by_cases hfg : f = g
  · subst hfg
    have hnone : List.find? (fun e => e.1 == f) (d.filter (fun e => !(e.1 == f))) = none := by
      apply List.find?_eq_none.mpr
      intro x hx
      have := List.of_mem_filter hx
      simpa using this
    rw [hnone]
    simp
  · rw [find?_filter_of_imp _ _ _ ?_]
    · cases hd : List.find? (fun e => e.1 == f) d
      · have hgf : (g == f) = false := by simpa using (Ne.symm hfg)
        simp [hd, List.find?, hgf, hfg]
      · simp [hd, hfg]
    · intro x hx
      have hx1 : x.1 = f := by simpa using hx
      subst hx1
      simpa using hfg

theorem diskExists_diskWrite (d : Disk) (g : TempFile) (b : Bytes) (f : TempFile) :
    diskExists (diskWrite d g b) f = if f = g then true else diskExists d f := by
  unfold diskExists
  rw [diskRead_diskWrite]
  by_cases hfg : f = g <;> simp [hfg]

theorem diskRead_cleanup (d : Disk) (g : TempFile) (f : TempFile) :
    diskRead (cleanup_temp_file d g) f = if f = g then none else diskRead d f := by
  unfold diskRead cleanup_temp_file
  by_cases hfg : f = g
  · subst hfg
    have hnone : List.find? (fun e => e.1 == f) (d.filter (fun e => !(e.1 == f))) = none := by
      apply List.find?_eq_none.mpr
      intro x hx
      have := List.of_mem_filter hx
      simpa using this
    rw [hnone]
    simp
  · rw [find?_filter_of_imp _ _ _ ?_]
    · simp [hfg]
    · intro x hx
      have hx1 : x.1 = f := by simpa using hx
      subst hx1
      simpa using hfg

theorem diskExists_cleanup (d : Disk) (g : TempFile) (f : TempFile) :
    diskExists (cleanup_temp_file d g) f = if f = g then false else diskExists d f := by
  unfold diskExists
  rw [diskRead_cleanup]
  by_cases hfg : f = g <;> simp [hfg]

end VideoService

namespace VideoService

theorem eq_of_perm_of_sorted_keys {α : Type} (key : α → Nat) :
    ∀ {l₁ l₂ : List α}, List.Perm l₁ l₂ →
      List.Pairwise (fun a b => key a ≤ key b) l₁ →
      List.Pairwise (fun a b => key a ≤ key b) l₂ →
      (l₁.map key).Nodup → l₁ = l₂ := by
  intro l₁
  induction l₁ with
  | nil =>
    intro l₂ hp _ _ _
    exact hp.nil_eq
  | cons a t ih =>
    intro l₂ hp hs₁ hs₂ hnd
    cases l₂ with
    | nil => exact absurd hp.eq_nil (by simp)
    | cons b t₂ =>
      have hab : a ∈ b :: t₂ := hp.subset (List.mem_cons_self _ _)
      have hba : b ∈ a :: t := hp.symm.subset (List.mem_cons_self _ _)
      have hs₁' := List.pairwise_cons.mp hs₁
      have hs₂' := List.pairwise_cons.mp hs₂
      simp only [List.map_cons, List.nodup_cons, List.mem_map] at hnd
      have hkab : key a ≤ key b := by
        rcases List.mem_cons.mp hba with h | hb
        · rw [h]
        · exact hs₁'.1 b hb
      have hkba : key b ≤ key a := by
        rcases List.mem_cons.mp hab with h | ha
        · rw [h]
        · exact hs₂'.1 a ha
      have hae : a = b := by
        rcases List.mem_cons.mp hba with h | hb
        · exact h.symm
        · exact absurd ⟨b, hb, Nat.le_antisymm hkba hkab⟩ hnd.1
      subst hae
      rw [ih hp.cons_inv hs₁'.2 hs₂'.2 hnd.2]

theorem sortFrames_perm (l : List Frame) : List.Perm (sortFrames l) l :=
  List.perm_insertionSort _ _

theorem sortFrames_sorted (l : List Frame) :
    List.Pairwise (fun a b => a.frame_num ≤ b.frame_num) (sortFrames l) := by
  haveI : IsTotal Frame (fun a b => a.frame_num ≤ b.frame_num) :=
    ⟨fun a b => Nat.le_total _ _⟩
  haveI : IsTrans Frame (fun a b => a.frame_num ≤ b.frame_num) :=
    ⟨fun _ _ _ hab hbc => Nat.le_trans hab hbc⟩
  exact List.sorted_insertionSort _ l

theorem sortNats_perm (l : List Nat) : List.Perm (sortNats l) l :=
  List.perm_insertionSort _ _

theorem sortNats_sorted (l : List Nat) : List.Pairwise (· ≤ ·) (sortNats l) := by
  haveI : IsTotal Nat (· ≤ ·) := ⟨fun a b => Nat.le_total _ _⟩
  haveI : IsTrans Nat (· ≤ ·) := ⟨fun _ _ _ hab hbc => Nat.le_trans hab hbc⟩
  exact List.sorted_insertionSort _ l

theorem sortFrames_eq_of_perm {l₁ l₂ : List Frame} (hp : List.Perm l₁ l₂)
    (hnd : (l₁.map (fun f => f.frame_num)).Nodup) : sortFrames l₁ = sortFrames l₂ :=
  eq_of_perm_of_sorted_keys (fun f => f.frame_num)
    ((sortFrames_perm l₁).trans (hp.trans (sortFrames_perm l₂).symm))
    (sortFrames_sorted l₁) (sortFrames_sorted l₂)
    ((((sortFrames_perm l₁).map _)).nodup_iff.mpr hnd)

theorem ensureClips_all_present (env : CombineEnv) (pid : Nat) (assets : List Asset) :
    ∀ (completed : List Frame) (disk : Disk),
      (∀ cf ∈ completed, diskExists disk (.clip pid cf.frame_num) = true) →
      ensureClips env pid assets completed disk =
        .ok (completed.map (fun f => f.frame_num), disk) := by
  intro completed
  induction completed with
  | nil => intro disk _; rfl
  | cons cf rest ih =>
    intro disk h
    have hcf := h cf (List.mem_cons_self _ _)
    have hrest := ih disk (fun m hm => h m (List.mem_cons_of_mem _ hm))
    simp only [ensureClips, hcf, if_true, hrest, List.map_cons]

theorem TempFile.clip_inj (pid a b : Nat) :
    (TempFile.clip pid a = TempFile.clip pid b) ↔ a = b := by
  constructor
  · intro h
    cases h
    rfl
  · intro h
    rw [h]

theorem ensureClips_error_at (env : CombineEnv) (pid : Nat) (assets : List Asset) :
    ∀ (pre : List Frame) (disk : Disk) (cf : Frame) (post : List Frame),
      (∀ m ∈ pre, diskExists disk (.clip pid m.frame_num) = true ∨
        ((findClipAsset assets m.frame_num).isSome ∧ (env.remote m.frame_num).isSome)) →
      (∀ m ∈ pre, m.frame_num ≠ cf.frame_num) →
      diskExists disk (.clip pid cf.frame_num) = false →
      (findClipAsset assets cf.frame_num = none ∨ env.remote cf.frame_num = none) →
      ∃ disk',
        ensureClips env pid assets (pre ++ cf :: post) disk =
          .error ("Cannot retrieve clip for frame " ++ toString cf.frame_num ++
            " — not on disk or R2", disk') ∨
        ensureClips env pid assets (pre ++ cf :: post) disk =
          .error ("Clip for frame " ++ toString cf.frame_num ++
            " not found locally and no R2 URL available", disk') := by
  intro pre
  induction pre with
  | nil =>
    intro disk cf post _ _ hmiss hrem
    refine ⟨disk, ?_⟩
    simp only [List.nil_append, ensureClips, hmiss, Bool.false_eq_true, if_false]
    cases hfa : findClipAsset assets cf.frame_num with
    | none => simp
    | some a =>
      have hrem' : env.remote cf.frame_num = none := by
        rcases hrem with h | h
        · rw [hfa] at h
          cases h
        · exact h
      simp [hrem']
  | cons m pre' ih =>
    intro disk cf post havail hne hmiss hrem
    have hm := havail m (List.mem_cons_self _ _)
    have hmnum := hne m (List.mem_cons_self _ _)
    cases hex : diskExists disk (.clip pid m.frame_num) with
    | true =>
      obtain ⟨disk', hd⟩ := ih disk cf post
        (fun x hx => havail x (List.mem_cons_of_mem _ hx))
        (fun x hx => hne x (List.mem_cons_of_mem _ hx)) hmiss hrem
      rcases hd with hd | hd
      · refine ⟨disk', Or.inl ?_⟩
        simp only [List.cons_append, ensureClips, hex, if_true, List.append_eq]
        rw [hd]
      · refine ⟨disk', Or.inr ?_⟩
        simp only [List.cons_append, ensureClips, hex, if_true, List.append_eq]
        rw [hd]
    | false =>
      rcases hm with hm | hm
      · rw [hex] at hm
        cases hm
      · obtain ⟨hfa, hrm⟩ := hm
        obtain ⟨a, ha⟩ := Option.isSome_iff_exists.mp hfa
        obtain ⟨b, hb⟩ := Option.isSome_iff_exists.mp hrm
        have hmiss1 : diskExists (diskWrite disk (.clip pid m.frame_num) b)
            (.clip pid cf.frame_num) = false := by
          rw [diskExists_diskWrite]
          rw [if_neg]
          · exact hmiss
          · rw [TempFile.clip_inj]
            exact fun hh => hmnum hh.symm
        have havail1 : ∀ x ∈ pre',
            diskExists (diskWrite disk (.clip pid m.frame_num) b)
                (.clip pid x.frame_num) = true ∨
              ((findClipAsset assets x.frame_num).isSome ∧
                (env.remote x.frame_num).isSome) := by
          intro x hx
          rcases havail x (List.mem_cons_of_mem _ hx) with h | h
          · left
            rw [diskExists_diskWrite]
            split
            · rfl
            · exact h
          · exact Or.inr h
        obtain ⟨disk', hd⟩ := ih (diskWrite disk (.clip pid m.frame_num) b) cf post
          havail1 (fun x hx => hne x (List.mem_cons_of_mem _ hx)) hmiss1 hrem
        rcases hd with hd | hd
        · refine ⟨disk', Or.inl ?_⟩
          simp only [List.cons_append, ensureClips, hex, Bool.false_eq_true, if_false, ha, hb,
            List.append_eq]
          rw [hd]
        · refine ⟨disk', Or.inr ?_⟩
          simp only [List.cons_append, ensureClips, hex, Bool.false_eq_true, if_false, ha, hb,
            List.append_eq]
          rw [hd]



theorem diskExists_diskWrite_of_exists (d : Disk) (g : TempFile) (b : Bytes)
    (f : TempFile) (hf : diskExists d f = true) :
    diskExists (diskWrite d g b) f = true := by
  rw [diskExists_diskWrite]
  split
  · rfl
  · exact hf

theorem ensureClips_disk_mono (env : CombineEnv) (pid : Nat) (assets : List Asset) :
    ∀ (completed : List Frame) (disk : Disk) (f : TempFile),
      diskExists disk f = true →
      (match ensureClips env pid assets completed disk with
        | .ok (_, d) => diskExists d f = true
        | .error (_, d) => diskExists d f = true) := by
  intro completed
  induction completed with
  | nil =>
    intro disk f hf
    exact hf
  | cons cf rest ih =>
    intro disk f hf
    simp only [ensureClips]
    cases hex : diskExists disk (.clip pid cf.frame_num) with
    | true =>
      simp only [if_true]
      have := ih disk f hf
      cases hr : ensureClips env pid assets rest disk with
      | ok v =>
        rcases v with ⟨nums, d1⟩
        rw [hr] at this
        exact this
      | error e =>
        rcases e with ⟨msg, d1⟩
        rw [hr] at this
        exact this
    | false =>
      simp only [Bool.false_eq_true, if_false]
      cases hfa : findClipAsset assets cf.frame_num with
      | none => exact hf
      | some a =>
        cases hrm : env.remote cf.frame_num with
        | none => exact hf
        | some b =>
          dsimp only
          have hf1 := diskExists_diskWrite_of_exists disk (.clip pid cf.frame_num) b f hf
          have := ih (diskWrite disk (.clip pid cf.frame_num) b) f hf1
          cases hr : ensureClips env pid assets rest (diskWrite disk (.clip pid cf.frame_num) b) with
          | ok v =>
            rcases v with ⟨nums, d1⟩
            rw [hr] at this
            exact this
          | error e =>
            rcases e with ⟨msg, d1⟩
            rw [hr] at this
            exact this

end VideoService

-- ---------------------------------------------------------------------------
-- Claims
-- ---------------------------------------------------------------------------

namespace VideoService

/-- C2 (amended): for every requested duration, `sora_create` sends to the job
service the value of the allowed set {4, 8, 12} nearest to the request and not
exceeding the configured maximum (for any maximum admitting an allowed value);
the tie-break for equidistant inputs is deterministic and prefers the
*smaller* value. -/
theorem C2_submit_snaps_nearest_tie_smaller (d max_sec : Int)
    (attempts : Nat → SoraAttempt) (h4 : 4 ≤ max_sec) :
    ∃ s, (sora_create { apiKeySet := true, maxSec := max_sec } d attempts).sentSeconds = some s ∧
      s ∈ ALLOWED ∧ s ≤ max_sec ∧
      ∀ x ∈ ALLOWED, x ≤ max_sec →
        (s - d).natAbs < (x - d).natAbs ∨
          ((s - d).natAbs = (x - d).natAbs ∧ s ≤ x) := by
  obtain ⟨s, hs, hmem, hle, hmin⟩ := snap_spec d max_sec h4
  refine ⟨s, ?_, hmem, hle, hmin⟩
  rcases hr : soraLoop attempts 1 3 with ⟨o, c, sl⟩
  simp [sora_create, hs, hr]

/-- C2 counterexample: the claim's documented tie-break ("prefer the larger
value") fails — for the equidistant request 6 the code sends 4, not 8. -/
theorem C2_counterexample_tie_prefers_smaller :
    (sora_create {} 6 smpOkAttempts).sentSeconds = some 4 ∧
      (sora_create {} 6 smpOkAttempts).sentSeconds ≠ some 8 := by
  constructor <;> decide

/-- C2 witness. -/
theorem C2_witness :
    ∃ s, (sora_create { apiKeySet := true, maxSec := 12 } 10 smpOkAttempts).sentSeconds = some s ∧
      s ∈ ALLOWED ∧ s ≤ 12 ∧
      ∀ x ∈ ALLOWED, x ≤ 12 →
        (s - 10).natAbs < (x - 10).natAbs ∨
          ((s - 10).natAbs = (x - 10).natAbs ∧ s ≤ x) :=
  C2_submit_snaps_nearest_tie_smaller 10 12 smpOkAttempts (by norm_num)

/-- C8: a 4xx from the job service fails immediately with no retry and the
upstream error text in the raised error; 5xx responses and network errors are
retried with exponential backoff (sleeps 2, 4) up to the cap of 3 attempts and
only then fail. -/
theorem C8_submit_retry_semantics (cfg : SoraConfig) (d : Int)
    (attempts : Nat → SoraAttempt) (hkey : cfg.apiKeySet = true)
    (hmax : 4 ≤ cfg.maxSec) :
    (∀ code body jid, attempts 1 = .resp code body jid → 400 ≤ code → code < 500 →
      (sora_create cfg d attempts).outcome =
          .error ("Sora API error (" ++ toString code ++ "): " ++ body) ∧
        (sora_create cfg d attempts).calls = 1 ∧
        (sora_create cfg d attempts).sleeps = []) ∧
    ((∀ i, 1 ≤ i → i ≤ 3 → isServerSideFailure (attempts i) = true) →
      (∃ e, (sora_create cfg d attempts).outcome = .error e) ∧
        (sora_create cfg d attempts).calls = 3 ∧
        (sora_create cfg d attempts).sleeps = [2, 4]) := by
  obtain ⟨s, hs, -, -, -⟩ := snap_spec d cfg.maxSec hmax
  constructor
  · intro code body jid ha h4 h5
    have hl := soraLoop_client_error attempts code body jid ha h4 h5
    refine ⟨?_, ?_, ?_⟩ <;> simp [sora_create, hkey, hs, hl]
  · intro ht
    obtain ⟨e, hl⟩ := soraLoop_transient attempts ht
    refine ⟨⟨e, ?_⟩, ?_, ?_⟩ <;> simp [sora_create, hkey, hs, hl]

/-- C8 witness. -/
theorem C8_witness :
    ((sora_create {} 8 smp4xxAttempts).outcome = .error "Sora API error (400): bad prompt" ∧
      (sora_create {} 8 smp4xxAttempts).calls = 1 ∧
      (sora_create {} 8 smp4xxAttempts).sleeps = []) ∧
    ((∃ e, (sora_create {} 8 smp5xxAttempts).outcome = .error e) ∧
      (sora_create {} 8 smp5xxAttempts).calls = 3 ∧
      (sora_create {} 8 smp5xxAttempts).sleeps = [2, 4]) := by
  constructor
  · exact (C8_submit_retry_semantics {} 8 smp4xxAttempts rfl (by norm_num)).1
      400 "bad prompt" none rfl (by norm_num) (by norm_num)
  · exact (C8_submit_retry_semantics {} 8 smp5xxAttempts rfl (by norm_num)).2
      (fun i _ _ => by simp [smp5xxAttempts, isServerSideFailure])

/-- C10: the duration clamp is total exactly when the configured maximum
admits an allowed duration: for `SORA_MAX_DURATION_SECONDS ≥ 4` the snapped
value lies in {4,8,12} and does not exceed the maximum; for a maximum below 4
the `max()` over the empty filtered sequence raises `ValueError` (before any
request is sent). -/
theorem C10_clamp_total_iff_max_ge_four (d max_sec : Int) (attempts : Nat → SoraAttempt) :
    (4 ≤ max_sec → ∃ s, snapDuration d max_sec = .ok s ∧ s ∈ ALLOWED ∧ s ≤ max_sec) ∧
    (max_sec < 4 →
      (sora_create { apiKeySet := true, maxSec := max_sec } d attempts).outcome =
          .error "ValueError: max() arg is an empty sequence" ∧
        (sora_create { apiKeySet := true, maxSec := max_sec } d attempts).calls = 0) := by
  constructor
  · intro h4
    obtain ⟨s, hs, hm, hle, -⟩ := snap_spec d max_sec h4
    exact ⟨s, hs, hm, hle⟩
  · intro hlt
    have he := snap_err d max_sec hlt
    constructor <;> simp [sora_create, he]

/-- C6: every exception at any step of `generate_single_frame` (submit, poll,
download, local save, upload, asset record — any error `m` of its step
pipeline) marks the frame failed with the message truncated to 1000
characters, and never propagates: the embedded function is total, so a
failing frame cannot abort sibling work. -/
theorem C6_frame_failure_contained (cfg : SoraConfig) (env : GenEnv) (db : DB)
    (disk : Disk) (frame_id pid fnum : Nat) (prompt : String) (dur : Int)
    (m : String) (disk' : Disk)
    (herr : gsfPipeline cfg env (update_frame_status db frame_id .generating) disk
      pid fnum prompt dur = (.error m, disk')) :
    ∀ g ∈ (generate_single_frame cfg env db disk frame_id pid fnum prompt dur).1.frames,
      g.id = frame_id →
        g.status = .failed ∧ g.error_message = some (pyTake m 1000) ∧
          ∀ e, g.error_message = some e → e.length ≤ 1000 := by
  intro g hg hid
  rw [generate_single_frame, herr] at hg
  obtain ⟨h1, h2⟩ := update_frame_status_mem_self _ frame_id .failed none m hg hid
  refine ⟨h1, h2, ?_⟩
  intro e he
  rw [h2] at he
  cases he
  exact pyTake_length m 1000

/-- C6 witness: frame 11 of the sample project, whose submit gets a 4xx. -/
theorem C6_witness :
    smpFailedFrame1.status = .failed ∧
      smpFailedFrame1.error_message = some (pyTake "Sora API error (400): bad prompt" 1000) ∧
      ∀ e, smpFailedFrame1.error_message = some e → e.length ≤ 1000 :=
  C6_frame_failure_contained {} smp4xxEnv smpDB [] 11 7 1 "p1" 8
    "Sora API error (400): bad prompt" [] rfl
    smpFailedFrame1 (by decide) rfl

/-- C10 witness. -/
theorem C10_witness :
    (∃ s, snapDuration 10 12 = .ok s ∧ s ∈ ALLOWED ∧ s ≤ 12) ∧
      ((sora_create { apiKeySet := true, maxSec := 2 } 10 smpOkAttempts).outcome =
          .error "ValueError: max() arg is an empty sequence" ∧
        (sora_create { apiKeySet := true, maxSec := 2 } 10 smpOkAttempts).calls = 0) :=
  ⟨(C10_clamp_total_iff_max_ge_four 10 12 smpOkAttempts).1 (by norm_num),
   (C10_clamp_total_iff_max_ge_four 10 2 smpOkAttempts).2 (by norm_num)⟩

end VideoService

namespace VideoService

/-- C3: after `generate_all_pending_frames` finishes a pass over a project
with at least one pending/failed frame, the project status is recomputed from
all frames — all completed → `clips_ready`; some but not all → `generating`;
none → `failed` — and the function is total (never raises).  Moreover a frame
whose submit gets a permanent 4xx ends failed with a non-empty error message,
while the others are unaffected. -/
theorem C3_batch_status_recompute (cfg : SoraConfig) (envs : Nat → GenEnv)
    (db : DB) (disk : Disk) (hne : framesToProcess db ≠ []) :
    ((completedCount (generate_all_pending_frames cfg envs db disk).1.frames =
        (generate_all_pending_frames cfg envs db disk).1.frames.length →
      (generate_all_pending_frames cfg envs db disk).1.project.status = .clips_ready) ∧
     (0 < completedCount (generate_all_pending_frames cfg envs db disk).1.frames →
      completedCount (generate_all_pending_frames cfg envs db disk).1.frames <
        (generate_all_pending_frames cfg envs db disk).1.frames.length →
      (generate_all_pending_frames cfg envs db disk).1.project.status = .generating) ∧
     (completedCount (generate_all_pending_frames cfg envs db disk).1.frames = 0 →
      (generate_all_pending_frames cfg envs db disk).1.project.status = .failed)) ∧
    (∀ (pre post : List Frame) (f : Frame) (code : Nat) (body : String)
        (jid : Option String),
      cfg.apiKeySet = true → 4 ≤ cfg.maxSec →
      (db.frames.map (fun g => g.id)).Nodup →
      framesToProcess db = pre ++ f :: post →
      (envs f.id).attempts 1 = .resp code body jid → 400 ≤ code → code < 500 →
      ∀ g ∈ (generate_all_pending_frames cfg envs db disk).1.frames, g.id = f.id →
        g.status = .failed ∧ ∃ s, g.error_message = some s ∧ s ≠ "") :=
  ⟨gapf_status_trichotomy cfg envs db disk hne _ rfl,
   fun pre post f code body jid hkey hmax hnodup hsplit ha h4 h5 =>
     gapf_4xx_frame_failed cfg envs db disk pre post f code body jid
       hkey hmax hnodup hsplit ha h4 h5⟩

/-- C3 witness: the sample project, three pending frames, frame 12 fails with
a 4xx; two complete, so the project ends `generating` and frame 12 carries a
non-empty error message. -/
theorem C3_witness :
    (generate_all_pending_frames {} smpEnvs smpDB []).1.project.status = .generating ∧
      (smpFailedFrame2.status = .failed ∧
        ∃ s, smpFailedFrame2.error_message = some s ∧ s ≠ "") := by
  constructor
  · exact (C3_batch_status_recompute {} smpEnvs smpDB [] (by decide)).1.2.1
      (by decide) (by decide)
  · exact (C3_batch_status_recompute {} smpEnvs smpDB [] (by decide)).2
      [smpFrame1] [smpFrame3] smpFrame2 400 "bad prompt" none rfl (by norm_num)
      (by decide) (by decide) rfl (by norm_num) (by norm_num)
      smpFailedFrame2 (by decide) rfl

end VideoService

namespace VideoService

theorem combine_clips_local_success (pid : Nat) (nums : List Nat) (ffOk : Bool)
    (disk : Disk) (hne : nums ≠ [])
    (hex : ∀ n ∈ nums, diskExists disk (.clip pid n) = true)
    (hff : ffOk = true) :
    combine_clips_local pid nums ffOk disk =
      (.ok ((sortNats nums).flatMap fun n => (diskRead disk (.clip pid n)).getD []),
       diskWrite (diskWrite disk (.listing pid) (sortNats nums)) (.final pid)
         ((sortNats nums).flatMap fun n => (diskRead disk (.clip pid n)).getD [])) := by
  have hfind : (sortNats nums).find? (fun n => !diskExists disk (.clip pid n)) = none := by
    apply List.find?_eq_none.mpr
    intro n hn
    have : n ∈ nums := (sortNats_perm nums).subset hn
    simp [hex n this]
  have hie : (sortNats nums).isEmpty = false := by
    cases hsn : sortNats nums with
    | nil =>
      have := (sortNats_perm nums).symm
      rw [hsn] at this
      exact absurd this.eq_nil hne
    | cons a l => rfl
  simp only [combine_clips_local, hfind, hie, Bool.false_eq_true, if_false, hff,
    Bool.not_true]

theorem combine_clips_local_disk_mono (pid : Nat) (nums : List Nat) (ffOk : Bool)
    (disk : Disk) (f : TempFile) (hf : diskExists disk f = true) :
    diskExists (combine_clips_local pid nums ffOk disk).2 f = true := by
  simp only [combine_clips_local]
  cases hfind : (sortNats nums).find? (fun n => !diskExists disk (.clip pid n)) with
  | some n => exact hf
  | none =>
    cases hie : (sortNats nums).isEmpty with
    | true => simp only [if_true]; exact hf
    | false =>
      simp only [Bool.false_eq_true, if_false]
      cases hffx : ffOk with
      | false =>
        simp only [Bool.not_false, if_true]
        exact diskExists_diskWrite_of_exists _ _ _ _ hf
      | true =>
        simp only [Bool.not_true, Bool.false_eq_true, if_false]
        exact diskExists_diskWrite_of_exists _ _ _ _
          (diskExists_diskWrite_of_exists _ _ _ _ hf)

theorem diskExists_cleanup_of_not (d : Disk) (g f : TempFile)
    (hf : diskExists d f = false) : diskExists (cleanup_temp_file d g) f = false := by
  rw [diskExists_cleanup]
  split
  · rfl
  · exact hf

theorem foldl_cleanup_preserves_absent (L : List TempFile) :
    ∀ (d : Disk) (f : TempFile), diskExists d f = false →
      diskExists (L.foldl cleanup_temp_file d) f = false := by
  induction L with
  | nil => intro d f hf; exact hf
  | cons g rest ih =>
    intro d f hf
    rw [List.foldl_cons]
    exact ih _ _ (diskExists_cleanup_of_not d g f hf)

theorem foldl_cleanup_removes (L : List TempFile) :
    ∀ (d : Disk) (f : TempFile), f ∈ L →
      diskExists (L.foldl cleanup_temp_file d) f = false := by
  induction L with
  | nil => intro d f hf; cases hf
  | cons g rest ih =>
    intro d f hf
    rw [List.foldl_cons]
    rcases List.mem_cons.mp hf with rfl | hf
    · apply foldl_cleanup_preserves_absent
      rw [diskExists_cleanup, if_pos rfl]
    · exact ih _ _ hf

end VideoService

namespace VideoService

theorem completedFrames_ne_nil_isEmpty (db : DB) (hc : completedFrames db ≠ []) :
    (completedFrames db).isEmpty = false := by
  cases h : completedFrames db with
  | nil => exact absurd h hc
  | cons a l => rfl

theorem sortFrames_isEmpty_of_completed (db : DB) (hc : completedFrames db ≠ []) :
    (sortFrames db.frames).isEmpty = false := by
  cases hsf : sortFrames db.frames with
  | nil =>
    exfalso
    apply hc
    unfold completedFrames
    rw [hsf]
    rfl
  | cons a l => rfl

/-- The full outcome of a successful `combine_project` run: clips gathered,
FFmpeg concat over ascending frame numbers, upload, asset upsert, status
update, temp cleanup. -/
theorem combine_project_success_eq (env : CombineEnv) (db : DB) (disk : Disk)
    (u : Option String)
    (hc : completedFrames db ≠ [])
    (hdisk : ∀ cf ∈ completedFrames db,
      diskExists disk (TempFile.clip db.project.id cf.frame_num) = true)
    (hff : env.ffmpegOk = true)
    (hup : env.uploadFinal = .ok u) :
    combine_project env db disk =
      (let pid := db.project.id
       let nums := sortNats ((completedFrames db).map (fun f => f.frame_num))
       let finalBytes := nums.flatMap fun n => (diskRead disk (.clip pid n)).getD []
       let ca := create_asset db pid "video" (finalPathStr pid) finalBytes.length u
       { result := .ok { asset_id := ca.1, video_url := u, file_size := finalBytes.length }
         db := update_project_status ca.2 env.statusUpdateOk .completed u
         disk := ((completedFrames db).map (fun cf => TempFile.clip pid cf.frame_num) ++
             [TempFile.listing pid, TempFile.final pid]).foldl cleanup_temp_file
             (diskWrite (diskWrite disk (.listing pid) nums) (.final pid) finalBytes)
         uploaded := [finalBytes] }) := by
  have hens := ensureClips_all_present env db.project.id db.assets (completedFrames db) disk hdisk
  have hnums_ne : (completedFrames db).map (fun f => f.frame_num) ≠ [] := by
    intro h
    exact hc (List.map_eq_nil_iff.mp h)
  have hex2 : ∀ n ∈ (completedFrames db).map (fun f => f.frame_num),
      diskExists disk (.clip db.project.id n) = true := by
    intro n hn
    obtain ⟨cf, hcf, rfl⟩ := List.mem_map.mp hn
    exact hdisk cf hcf
  have hccl := combine_clips_local_success db.project.id _ env.ffmpegOk disk hnums_ne hex2 hff
  simp only [combine_project, sortFrames_isEmpty_of_completed db hc,
    completedFrames_ne_nil_isEmpty db hc, Bool.false_eq_true, if_false, hens, hccl, hup]

end VideoService

namespace VideoService

theorem FrameStatus.beq_iff (a b : FrameStatus) : (a == b) = true ↔ a = b := by
  cases a <;> cases b <;> decide

/-- C9: `combine_project` concatenates exactly the clips of completed frames,
in ascending `frame_num` order — frames in failed, pending, or generating
status are silently omitted — and then sets the project `completed` with the
URL of that partial concatenation. -/
theorem C9_combine_only_completed (env : CombineEnv) (db : DB) (disk : Disk)
    (u : Option String)
    (hc : completedFrames db ≠ [])
    (hdisk : ∀ cf ∈ completedFrames db,
      diskExists disk (TempFile.clip db.project.id cf.frame_num) = true)
    (hff : env.ffmpegOk = true) (hup : env.uploadFinal = .ok u)
    (hsu : env.statusUpdateOk = true) :
    (∃ aid, (combine_project env db disk).result = .ok
      { asset_id := aid, video_url := u,
        file_size := ((sortNats ((completedFrames db).map (fun f => f.frame_num))).flatMap
          fun n => (diskRead disk (.clip db.project.id n)).getD []).length }) ∧
    (combine_project env db disk).uploaded =
      [(sortNats ((completedFrames db).map (fun f => f.frame_num))).flatMap
        fun n => (diskRead disk (.clip db.project.id n)).getD []] ∧
    (∀ n, n ∈ sortNats ((completedFrames db).map (fun f => f.frame_num)) ↔
      ∃ f ∈ db.frames, f.status = .completed ∧ f.frame_num = n) ∧
    (combine_project env db disk).db.project.status = .completed ∧
    (∀ s, u = some s → (combine_project env db disk).db.project.video_url = some s) := by
  rw [combine_project_success_eq env db disk u hc hdisk hff hup]
  refine ⟨⟨_, rfl⟩, rfl, ?_, ?_, ?_⟩
  · intro n
    rw [(sortNats_perm _).mem_iff, List.mem_map]
    constructor
    · rintro ⟨f, hf, rfl⟩
      have hf' : f ∈ (sortFrames db.frames).filter
          (fun g => g.status == FrameStatus.completed) := hf
      refine ⟨f, ?_, ?_, rfl⟩
      · exact (sortFrames_perm db.frames).subset (List.mem_of_mem_filter hf')
      · have hp := List.of_mem_filter hf'
        exact (FrameStatus.beq_iff _ _).mp hp
    · rintro ⟨f, hf, hst, rfl⟩
      refine ⟨f, ?_, rfl⟩
      unfold completedFrames
      rw [List.mem_filter]
      exact ⟨(sortFrames_perm db.frames).symm.subset hf, (FrameStatus.beq_iff _ _).mpr hst⟩
  · simp only [update_project_status, hsu, if_true]
  · intro s hs
    subst hs
    simp only [update_project_status, hsu, if_true]

/-- C9 witness: a project with frames 1 and 3 completed, frame 2 failed. -/
theorem C9_witness :
    (combine_project smpCombineEnv smpPartialDB smpPartialDisk).uploaded =
      [(sortNats ((completedFrames smpPartialDB).map (fun f => f.frame_num))).flatMap
        fun n => (diskRead smpPartialDisk (.clip smpPartialDB.project.id n)).getD []] ∧
    (combine_project smpCombineEnv smpPartialDB smpPartialDisk).db.project.status =
      .completed := by
  have h := C9_combine_only_completed smpCombineEnv smpPartialDB smpPartialDisk
    (some "http://final") (by decide) (by decide) rfl rfl rfl
  exact ⟨h.2.1, h.2.2.2.1⟩

end VideoService

namespace VideoService

theorem finalPathStr_startsWith (pid : Nat) :
    strStartsWith "final/" (finalPathStr pid) = true := by
  unfold strStartsWith finalPathStr
  have hdata : (("final/videos/" ++ toString pid ++ "/final.mp4" : String)).data =
      ("final/" : String).data ++
        (("videos/" : String).data ++ (toString pid).data ++ ("/final.mp4" : String).data) := by
    have h1 : (("final/videos/" ++ toString pid ++ "/final.mp4" : String)).data =
        ("final/videos/" : String).data ++ (toString pid).data ++ ("/final.mp4" : String).data := rfl
    rw [h1]
    have h2 : ("final/videos/" : String).data =
        ("final/" : String).data ++ ("videos/" : String).data := by decide
    rw [h2]
    simp [List.append_assoc]
  rw [hdata, List.isPrefixOf_iff_prefix]
  exact List.prefix_append _ _

theorem urlTruthy_ite (u : Option String) (hurl : u = none ∨ ∃ s, u = some s ∧ s ≠ "") :
    (if urlTruthy u then u else none) = u := by
  rcases hurl with rfl | ⟨s, rfl, hs⟩
  · rfl
  · have : urlTruthy (some s) = true := by
      simp only [urlTruthy]
      simpa using hs
    rw [this, if_pos rfl]

theorem create_asset_insert (db : DB) (pid : Nat) (path : String) (sz : Nat)
    (u : Option String) (hnov : ∀ a ∈ db.assets, a.asset_type ≠ "video") :
    create_asset db pid "video" path sz u =
      (db.nextAssetId,
        { db with
          assets := db.assets ++
            [{ id := db.nextAssetId
               project_id := pid
               asset_type := "video"
               file_path := path
               file_size := sz
               file_url := if urlTruthy u then u else none }]
          nextAssetId := db.nextAssetId + 1 }) := by
  have hany : (db.assets.any fun a => a.project_id == pid && a.asset_type == "video") = false := by
    rw [List.any_eq_false]
    intro a ha
    have := hnov a ha
    simp [this]
  simp only [create_asset, hany, Bool.and_false, Bool.false_eq_true, if_false]

theorem update_project_status_assets (db : DB) (ok : Bool) (st : ProjectStatus)
    (u : Option String) : (update_project_status db ok st u).assets = db.assets := by
  unfold update_project_status
  split <;> rfl

/-- The combine route short-circuits as soon as a `final/` asset exists. -/
theorem combine_videos_short_circuit (env : CombineEnv) (db : DB) (disk : Disk)
    (A : Asset) (rest : List Asset)
    (hc : completedFrames db ≠ [])
    (hsplit : db.assets.filter (fun a => strStartsWith "final/" a.file_path) = A :: rest) :
    combine_videos env db disk =
      { resp := .alreadyCombined A.file_url, bg := none, db := db, disk := disk } := by
  simp only [combine_videos, completedFrames_ne_nil_isEmpty db hc, Bool.false_eq_true,
    if_false, hsplit]

/-- C1: the combine operation (the combine route backed by `combine_project`)
is idempotent.  On a project with completed clips and no final asset, the
first call runs the combine and records one final-video asset; the second
call short-circuits with `already_combined`, returns the same public URL,
schedules no new combine (no re-encode), and leaves store and disk unchanged,
so the single final-video row keeps its id and URL. -/
theorem C1_combine_idempotent (env : CombineEnv) (db : DB) (disk : Disk)
    (u : Option String)
    (hc : completedFrames db ≠ [])
    (hnofinal : ∀ a ∈ db.assets, strStartsWith "final/" a.file_path = false)
    (hnovideo : ∀ a ∈ db.assets, a.asset_type ≠ "video")
    (hdisk : ∀ cf ∈ completedFrames db,
      diskExists disk (TempFile.clip db.project.id cf.frame_num) = true)
    (hff : env.ffmpegOk = true) (hup : env.uploadFinal = .ok u)
    (hurl : u = none ∨ ∃ s, u = some s ∧ s ≠ "") :
    (combine_videos env db disk).resp = .started (completedFrames db).length ∧
    (∃ r, (combine_videos env db disk).bg = some r ∧
      ∃ sz, r.result = .ok { asset_id := db.nextAssetId, video_url := u, file_size := sz }) ∧
    ((combine_videos env db disk).db.assets.filter
        (fun a => strStartsWith "final/" a.file_path)).map (fun a => (a.id, a.file_url)) =
      [(db.nextAssetId, u)] ∧
    (combine_videos env (combine_videos env db disk).db (combine_videos env db disk).disk).resp =
      .alreadyCombined u ∧
    (combine_videos env (combine_videos env db disk).db (combine_videos env db disk).disk).bg =
      none ∧
    (combine_videos env (combine_videos env db disk).db (combine_videos env db disk).disk).db =
      (combine_videos env db disk).db ∧
    (combine_videos env (combine_videos env db disk).db (combine_videos env db disk).disk).disk =
      (combine_videos env db disk).disk := by
  have hcie := completedFrames_ne_nil_isEmpty db hc
  have hfilter0 : db.assets.filter (fun a => strStartsWith "final/" a.file_path) = [] := by
    rw [List.filter_eq_nil_iff]
    intro a ha
    simp [hnofinal a ha]
  have hAurl : (if urlTruthy u then u else none) = u := urlTruthy_ite u hurl
  have hcp := combine_project_success_eq env db disk u hc hdisk hff hup
  have hca := create_asset_insert db db.project.id (finalPathStr db.project.id)
    ((sortNats ((completedFrames db).map (fun f => f.frame_num))).flatMap
      fun n => (diskRead disk (.clip db.project.id n)).getD []).length u hnovideo
  have hcv1 : combine_videos env db disk =
      { resp := .started (completedFrames db).length
        bg := some (combine_project env db disk)
        db := (combine_project env db disk).db
        disk := (combine_project env db disk).disk } := by
    simp only [combine_videos, hcie, Bool.false_eq_true, if_false, hfilter0]
  have hres : (combine_project env db disk).result = .ok
      { asset_id := db.nextAssetId, video_url := u,
        file_size := ((sortNats ((completedFrames db).map (fun f => f.frame_num))).flatMap
          fun n => (diskRead disk (.clip db.project.id n)).getD []).length } := by
    have h := congrArg CombineRes.result hcp
    dsimp only at h
    rw [hca] at h
    exact h
  have hdb1 : (combine_project env db disk).db =
      update_project_status
        { db with
          assets := db.assets ++
            [{ id := db.nextAssetId
               project_id := db.project.id
               asset_type := "video"
               file_path := finalPathStr db.project.id
               file_size := ((sortNats ((completedFrames db).map
                   (fun f => f.frame_num))).flatMap
                 fun n => (diskRead disk (.clip db.project.id n)).getD []).length
               file_url := if urlTruthy u then u else none }]
          nextAssetId := db.nextAssetId + 1 }
        env.statusUpdateOk .completed u := by
    have h := congrArg CombineRes.db hcp
    dsimp only at h
    rw [hca] at h
    exact h
  have hframes1 : (combine_project env db disk).db.frames = db.frames := by
    rw [hdb1, update_project_status_frames]
  have hassets1 : (combine_project env db disk).db.assets = db.assets ++
      [{ id := db.nextAssetId
         project_id := db.project.id
         asset_type := "video"
         file_path := finalPathStr db.project.id
         file_size := ((sortNats ((completedFrames db).map (fun f => f.frame_num))).flatMap
           fun n => (diskRead disk (.clip db.project.id n)).getD []).length
         file_url := if urlTruthy u then u else none }] := by
    rw [hdb1, update_project_status_assets]
  have hcfr1 : completedFrames (combine_project env db disk).db = completedFrames db := by
    unfold completedFrames
    rw [hframes1]
  have hfilter1 : (combine_project env db disk).db.assets.filter
      (fun a => strStartsWith "final/" a.file_path) =
      [{ id := db.nextAssetId
         project_id := db.project.id
         asset_type := "video"
         file_path := finalPathStr db.project.id
         file_size := ((sortNats ((completedFrames db).map (fun f => f.frame_num))).flatMap
           fun n => (diskRead disk (.clip db.project.id n)).getD []).length
         file_url := if urlTruthy u then u else none }] := by
    rw [hassets1, List.filter_append, hfilter0, List.nil_append]
    rw [List.filter_cons]
    simp [finalPathStr_startsWith]
  have hsc := combine_videos_short_circuit env (combine_project env db disk).db
    (combine_project env db disk).disk _ [] (by rw [hcfr1]; exact hc) hfilter1
  refine ⟨?_, ?_, ?_, ?_, ?_, ?_, ?_⟩
  · rw [hcv1]
  · rw [hcv1]
    exact ⟨combine_project env db disk, rfl, _, hres⟩
  · rw [hcv1]
    dsimp only
    rw [hfilter1, List.map_cons, List.map_nil]
    rw [hAurl]
  · rw [hcv1]
    dsimp only
    rw [hsc]
    dsimp only
    rw [hAurl]
  · rw [hcv1]
    dsimp only
    rw [hsc]
  · rw [hcv1]
    dsimp only
    rw [hsc]
  · rw [hcv1]
    dsimp only
    rw [hsc]

end VideoService

namespace VideoService

/-- C1 witness: the sample project with three completed clips cached, combined
twice. -/
theorem C1_witness :
    (combine_videos smpCombineEnv smpClipsDB smpDisk).resp =
      .started (completedFrames smpClipsDB).length ∧
    (combine_videos smpCombineEnv (combine_videos smpCombineEnv smpClipsDB smpDisk).db
        (combine_videos smpCombineEnv smpClipsDB smpDisk).disk).resp =
      .alreadyCombined (some "http://final") ∧
    (combine_videos smpCombineEnv (combine_videos smpCombineEnv smpClipsDB smpDisk).db
        (combine_videos smpCombineEnv smpClipsDB smpDisk).disk).bg = none := by
  have h := C1_combine_idempotent smpCombineEnv smpClipsDB smpDisk (some "http://final")
    (by decide) (by decide) (by decide) (by decide) rfl rfl (Or.inr ⟨_, rfl, by decide⟩)
  exact ⟨h.1, h.2.2.2.1, h.2.2.2.2.1⟩

end VideoService

namespace VideoService

/-- C5: if a completed frame's clip is available neither in the local cache
nor from remote storage, `combine_project` returns an error naming that
frame, produces no final video (nothing uploaded), and leaves the store —
in particular the project status — unchanged. -/
theorem C5_missing_clip_fails_combine (env : CombineEnv) (db : DB) (disk : Disk)
    (pre post : List Frame) (cf : Frame)
    (hsplit : completedFrames db = pre ++ cf :: post)
    (havail : ∀ m ∈ pre, diskExists disk (TempFile.clip db.project.id m.frame_num) = true ∨
      ((findClipAsset db.assets m.frame_num).isSome ∧ (env.remote m.frame_num).isSome))
    (hne : ∀ m ∈ pre, m.frame_num ≠ cf.frame_num)
    (hmiss : diskExists disk (TempFile.clip db.project.id cf.frame_num) = false)
    (hrem : findClipAsset db.assets cf.frame_num = none ∨ env.remote cf.frame_num = none) :
    (∃ msg, (combine_project env db disk).result = .error msg ∧
      (msg = "Cannot retrieve clip for frame " ++ toString cf.frame_num ++
          " — not on disk or R2" ∨
       msg = "Clip for frame " ++ toString cf.frame_num ++
          " not found locally and no R2 URL available")) ∧
    (combine_project env db disk).db = db ∧
    (combine_project env db disk).uploaded = [] := by
  have hc : completedFrames db ≠ [] := by simp [hsplit]
  obtain ⟨disk', hd⟩ := ensureClips_error_at env db.project.id db.assets pre disk cf post
    havail hne hmiss hrem
  rcases hd with hd | hd
  · rw [← hsplit] at hd
    simp only [combine_project, sortFrames_isEmpty_of_completed db hc,
      completedFrames_ne_nil_isEmpty db hc, Bool.false_eq_true, if_false, hd]
    exact ⟨⟨_, rfl, Or.inl rfl⟩, trivial, trivial⟩
  · rw [← hsplit] at hd
    simp only [combine_project, sortFrames_isEmpty_of_completed db hc,
      completedFrames_ne_nil_isEmpty db hc, Bool.false_eq_true, if_false, hd]
    exact ⟨⟨_, rfl, Or.inr rfl⟩, trivial, trivial⟩

/-- C5 witness: clip 1 is missing locally, there is no recorded asset URL,
and remote storage has nothing. -/
theorem C5_witness :
    (combine_project smpCombineEnv smpClipsDB smpDiskMissing).db = smpClipsDB ∧
    (combine_project smpCombineEnv smpClipsDB smpDiskMissing).uploaded = [] := by
  have h := C5_missing_clip_fails_combine smpCombineEnv smpClipsDB smpDiskMissing
    [] [{ smpFrame2 with status := .completed }, { smpFrame3 with status := .completed }]
    { smpFrame1 with status := .completed }
    (by decide) (by intro m hm; cases hm) (by intro m hm; cases hm) (by decide)
    (Or.inl (by decide))
  exact ⟨h.2.1, h.2.2⟩

end VideoService

namespace VideoService

/-- C7 counterexample: with the store refusing the status update (which
`update_project_status` swallows), `combine_project` still deletes every temp
artifact — the clip, concat list and final file are gone from disk although
the project row was never set to `completed` (status still `clips_ready`, no
video URL).  Deletion is therefore not conditional on the store update
having succeeded. -/
theorem C7_counterexample_cleanup_despite_failed_update :
    (combine_project smpCombineEnvNoStatus smpClipsDB smpDisk).uploaded ≠ [] ∧
    (combine_project smpCombineEnvNoStatus smpClipsDB smpDisk).db.project.status =
      .clips_ready ∧
    (combine_project smpCombineEnvNoStatus smpClipsDB smpDisk).db.project.video_url = none ∧
    diskExists (combine_project smpCombineEnvNoStatus smpClipsDB smpDisk).disk
      (TempFile.clip 7 1) = false ∧
    diskExists (combine_project smpCombineEnvNoStatus smpClipsDB smpDisk).disk
      (TempFile.listing 7) = false ∧
    diskExists (combine_project smpCombineEnvNoStatus smpClipsDB smpDisk).disk
      (TempFile.final 7) = false := by
  refine ⟨?_, ?_, ?_, ?_, ?_, ?_⟩ <;> decide

/-- C7 (amended): temp artifacts are deleted only after the final video's
upload and the asset-record write have succeeded and the status update has
been issued; if the upload or any earlier step fails, no temp artifact is
deleted.  (A store failure inside `update_project_status` is swallowed and
does not prevent deletion.) -/
theorem C7_cleanup_only_after_upload (env : CombineEnv) (db : DB) (disk : Disk) :
    (∀ e, (combine_project env db disk).result = .error e →
      ∀ f, diskExists disk f = true →
        diskExists (combine_project env db disk).disk f = true) ∧
    (∀ info, (combine_project env db disk).result = .ok info →
      env.uploadFinal = .ok info.video_url ∧
      (∀ cf ∈ completedFrames db,
        diskExists (combine_project env db disk).disk
          (TempFile.clip db.project.id cf.frame_num) = false) ∧
      diskExists (combine_project env db disk).disk (TempFile.listing db.project.id) = false ∧
      diskExists (combine_project env db disk).disk (TempFile.final db.project.id) = false) := by
  rcases hcp : combine_project env db disk with ⟨res, dbx, diskx, upx⟩
  dsimp only
  simp only [combine_project] at hcp
  split at hcp
  · -- no frames
    simp only [CombineRes.mk.injEq] at hcp
    obtain ⟨hres, -, hdisk, -⟩ := hcp
    constructor
    · intro e _ f hf
      rw [← hdisk]
      exact hf
    · intro info hinfo
      rw [← hres] at hinfo
      cases hinfo
  · split at hcp
    · -- no completed clips
      simp only [CombineRes.mk.injEq] at hcp
      obtain ⟨hres, -, hdisk, -⟩ := hcp
      constructor
      · intro e _ f hf
        rw [← hdisk]
        exact hf
      · intro info hinfo
        rw [← hres] at hinfo
        cases hinfo
    · split at hcp
      · -- ensureClips failed
        rename_i heq_ens
        simp only [CombineRes.mk.injEq] at hcp
        obtain ⟨hres, -, hdisk, -⟩ := hcp
        constructor
        · intro e _ f hf
          rw [← hdisk]
          have hm := ensureClips_disk_mono env db.project.id db.assets
            (completedFrames db) disk f hf
          rw [heq_ens] at hm
          exact hm
        · intro info hinfo
          rw [← hres] at hinfo
          cases hinfo
      · rename_i nums disk1 heq_ens
        have hmono1 : ∀ f, diskExists disk f = true → diskExists disk1 f = true := by
          intro f hf
          have hm := ensureClips_disk_mono env db.project.id db.assets
            (completedFrames db) disk f hf
          rw [heq_ens] at hm
          exact hm
        split at hcp
        · -- FFmpeg failed
          rename_i e2 disk2 heq_ccl
          simp only [CombineRes.mk.injEq] at hcp
          obtain ⟨hres, -, hdisk, -⟩ := hcp
          constructor
          · intro e _ f hf
            rw [← hdisk]
            have hm := combine_clips_local_disk_mono db.project.id nums env.ffmpegOk
              disk1 f (hmono1 f hf)
            rw [heq_ccl] at hm
            exact hm
          · intro info hinfo
            rw [← hres] at hinfo
            cases hinfo
        · rename_i finalBytes disk2 heq_ccl
          split at hcp
          · -- upload failed
            rename_i e3 heq_up
            simp only [CombineRes.mk.injEq] at hcp
            obtain ⟨hres, -, hdisk, -⟩ := hcp
            constructor
            · intro e _ f hf
              rw [← hdisk]
              have hm := combine_clips_local_disk_mono db.project.id nums env.ffmpegOk
                disk1 f (hmono1 f hf)
              rw [heq_ccl] at hm
              exact hm
            · intro info hinfo
              rw [← hres] at hinfo
              cases hinfo
          · -- success
            rename_i url heq_up
            simp only [CombineRes.mk.injEq] at hcp
            obtain ⟨hres, -, hdisk, -⟩ := hcp
            constructor
            · intro e he _ _
              rw [← hres] at he
              cases he
            · intro info hinfo
              rw [← hres] at hinfo
              cases hinfo
              constructor
              · exact heq_up
              refine ⟨?_, ?_, ?_⟩
              · intro cf hcf
                rw [← hdisk]
                apply foldl_cleanup_removes
                apply List.mem_append_left
                exact List.mem_map_of_mem _ hcf
              · rw [← hdisk]
                apply foldl_cleanup_removes
                apply List.mem_append_right
                simp
              · rw [← hdisk]
                apply foldl_cleanup_removes
                apply List.mem_append_right
                simp

/-- C7 witness for the amended claim: an upload failure deletes nothing; a
full success deletes the clip, list and final files. -/
theorem C7_witness :
    diskExists (combine_project
      { remote := fun _ => none, uploadFinal := .error "R2 upload failed (500): boom" }
      smpClipsDB smpDisk).disk (TempFile.clip 7 1) = true ∧
    diskExists (combine_project smpCombineEnv smpClipsDB smpDisk).disk
      (TempFile.clip 7 1) = false := by
  constructor
  · exact (C7_cleanup_only_after_upload
      { remote := fun _ => none, uploadFinal := .error "R2 upload failed (500): boom" }
      smpClipsDB smpDisk).1 "R2 upload failed (500): boom" rfl
      (TempFile.clip 7 1) (by decide)
  · have h := (C7_cleanup_only_after_upload smpCombineEnv smpClipsDB smpDisk).2
      { asset_id := 100, video_url := some "http://final", file_size := 3 } rfl
    exact h.2.1 { smpFrame1 with status := .completed } (by decide)

end VideoService

namespace VideoService

/-- C4: processing and assembly are by ascending `frame_num`, regardless of
insertion order.  For any permutation of a project's frame rows (with
distinct frame numbers): the batch-processing sequence is identical and its
frame numbers ascend; and a successful combine uploads the same final bytes,
namely the completed frames' clips concatenated in ascending `frame_num`
order. -/
theorem C4_ascending_frame_order (env : CombineEnv)
    (db : DB) (fs₂ : List Frame) (disk : Disk) (u : Option String)
    (hperm : List.Perm db.frames fs₂)
    (hnd : (db.frames.map (fun f => f.frame_num)).Nodup) :
    framesToProcess { db with frames := fs₂ } = framesToProcess db ∧
    List.Pairwise (· ≤ ·) ((framesToProcess db).map (fun f => f.frame_num)) ∧
    List.Pairwise (· ≤ ·) (sortNats ((completedFrames db).map (fun f => f.frame_num))) ∧
    (completedFrames db ≠ [] →
      (∀ cf ∈ completedFrames db,
        diskExists disk (TempFile.clip db.project.id cf.frame_num) = true) →
      env.ffmpegOk = true → env.uploadFinal = .ok u →
      (combine_project env { db with frames := fs₂ } disk).uploaded =
        (combine_project env db disk).uploaded ∧
      (combine_project env db disk).uploaded =
        [(sortNats ((completedFrames db).map (fun f => f.frame_num))).flatMap
          fun n => (diskRead disk (.clip db.project.id n)).getD []]) := by
  have hsf : sortFrames fs₂ = sortFrames db.frames := (sortFrames_eq_of_perm hperm hnd).symm
  have hfs2 : ({ db with frames := fs₂ } : DB).frames = fs₂ := rfl
  have hcf2 : completedFrames { db with frames := fs₂ } = completedFrames db := by
    unfold completedFrames
    rw [hfs2, hsf]
  refine ⟨?_, ?_, ?_, ?_⟩
  · unfold framesToProcess
    rw [hfs2, hsf]
  · exact List.pairwise_map.mpr ((sortFrames_sorted db.frames).filter _)
  · exact sortNats_sorted _
  · intro hc hdisk hff hup
    have hc2 : completedFrames { db with frames := fs₂ } ≠ [] := by
      rw [hcf2]
      exact hc
    have hdisk2 : ∀ cf ∈ completedFrames { db with frames := fs₂ },
        diskExists disk
          (TempFile.clip ({ db with frames := fs₂ } : DB).project.id cf.frame_num) = true := by
      rw [hcf2]
      exact hdisk
    have h1 := combine_project_success_eq env db disk u hc hdisk hff hup
    have h2 := combine_project_success_eq env { db with frames := fs₂ } disk u hc2 hdisk2 hff hup
    constructor
    · have hu1 := congrArg CombineRes.uploaded h1
      have hu2 := congrArg CombineRes.uploaded h2
      dsimp only at hu1 hu2
      rw [hu1, hu2, hcf2]
    · have hu1 := congrArg CombineRes.uploaded h1
      dsimp only at hu1
      exact hu1

/-- C4 witness: the sample completed project with frames stored as [3, 1, 2]
versus sorted storage [1, 2, 3]. -/
theorem C4_witness :
    framesToProcess { smpClipsDB with
      frames := [{ smpFrame1 with status := .completed },
                 { smpFrame2 with status := .completed },
                 { smpFrame3 with status := .completed }] } = framesToProcess smpClipsDB ∧
    (combine_project smpCombineEnv smpClipsDB smpDisk).uploaded =
      [(sortNats ((completedFrames smpClipsDB).map (fun f => f.frame_num))).flatMap
        fun n => (diskRead smpDisk (.clip smpClipsDB.project.id n)).getD []] := by
  have h := C4_ascending_frame_order smpCombineEnv smpClipsDB
    [{ smpFrame1 with status := .completed },
     { smpFrame2 with status := .completed },
     { smpFrame3 with status := .completed }] smpDisk (some "http://final")
    (by decide) (by decide)
  exact ⟨h.1, (h.2.2.2 (by decide) (by decide) rfl rfl).2⟩

end VideoService
